import Mathlib

/-!
# Verification of the scene-graph engine of `vuforia-spatial-edge-server`

Shallow embedding of `src/libraries/sceneGraph/SceneGraph.js`.

The registry `this.graph` (a JS object mapping string uuids to `SceneNode`
objects) is embedded as an association list `List (String × SceneNode)`,
first binding wins, insertion at the end — exactly the observable behaviour
of a JS object with unique keys.  Following the specification's own design
note ("model as an arena of nodes addressed by stable IDs …, with parent
stored as an ID/index lookup and children stored as an owned ordered list
of IDs"), the JS object references `node.parent` / `node.children` are
embedded as the parent's key (`Option String`) and the list of child keys.

`SceneNode.js`, `utils.js` and `utilities.js` are not part of the sources;
every definition translated from those collaborators is marked
`Modelled from the spec:` and follows the specification text
(§4.2 Entity Node, §4.3 Coordinate Utilities, §6 Addressing scheme).
-/

namespace SceneGraphJs

/-- Matrices are flat 16-element sequences of numbers (spec §6); entries are
modelled as exact rationals. -/
abbrev Mat := List ℚ

/-- The 4×4 identity, flattened. -/
def identityMatrix : Mat := [1,0,0,0, 0,1,0,0, 0,0,1,0, 0,0,0,1]

/-- Modelled from the spec: the external 4×4 matrix composition primitive
(`utils.js` is not in the sources).  `matMul a b` composes two flat
16-element matrices (row index `i / 4`, column index `i % 4`). -/
def matMul (a b : Mat) : Mat :=
  (List.range 16).map (fun i =>
    (List.range 4).foldl
      (fun acc k => acc + a.getD (4 * (i / 4) + k) 0 * b.getD (4 * k + (i % 4)) 0) 0)

/-- The fixed coordinate-correction matrix written out literally in
`SceneGraph.addRotateX` (src lines 141–146). -/
def rotateXMatrix : Mat := [1,0,0,0, 0,-1,0,0, 0,0,1,0, 0,0,0,1]

/-- Modelled from the spec: `graphUtils.makeGroundPlaneRotationX(-(Math.PI/2))`
(`utils.js` is not in the sources) — a pure axis-rotation builder (spec §4.3);
at the angle `-π/2` the rotation about X is exact: `cos = 0`, `sin = -1`. -/
def groundPlaneRotationX : Mat := [1,0,0,0, 0,0,-1,0, 0,1,0,0, 0,0,0,1]

/-- Modelled from the spec: the Entity Node record (spec §3 Data Model;
`SceneNode.js` is not in the sources).  `parentKey`/`children` are the
arena embedding of the JS object references, `dirty` is the `stale` flag,
`trackedPose` the auxiliary 2D position + scale summary, `linkedVehicle`
the opaque `linkedPayload` reference. -/
structure SceneNode where
  id : String
  parentKey : Option String := none
  children : List String := []
  localMatrix : Mat := identityMatrix
  worldMatrix : Mat := identityMatrix
  dirty : Bool := true
  needsRotateX : Bool := false
  deactivated : Bool := false
  linkedVehicle : Option Nat := none
  trackedPose : Option (ℚ × ℚ × ℚ) := none
deriving DecidableEq

/-- `new SceneNode(id)` — a fresh node with default fields. -/
def SceneNode.fresh (id : String) : SceneNode := { id := id }

/-- The registry `this.graph`. -/
abbrev Graph := List (String × SceneNode)

/-- `this.graph[key]` — first binding wins. -/
def findNode : Graph → String → Option SceneNode
  | [], _ => none
  | (k', n) :: rest, k => if k' = k then some n else findNode rest k

/-- Overwrite the (first) binding of `k`; no-op when `k` is absent.
This is `this.graph[key] = node` for an already-present key. -/
def setNode : Graph → String → SceneNode → Graph
  | [], _, _ => []
  | (k', n') :: rest, k, n =>
      if k' = k then (k', n) :: rest else (k', n') :: setNode rest k n

/-- In-place update of the node bound to `k` (mirrors mutating a field of
`this.graph[k]` in JS); no-op when `k` is absent. -/
def updNode (g : Graph) (k : String) (f : SceneNode → SceneNode) : Graph :=
  match findNode g k with
  | none => g
  | some n => setNode g k (f n)

/-- The keys of the registry, in binding order. -/
def keysOf (g : Graph) : List String := g.map Prod.fst

/-- Number of bindings of key `k` in the registry. -/
def countKey (g : Graph) (k : String) : Nat := (keysOf g).count k

/-- Modelled from the spec: the external deterministic ID-construction
utility `utilities.getUuid` (`utilities.js` is not in the sources).  The
spec only requires it to be "deterministic, collision-free across distinct
paths, and stable" (§6); we realise this with a unary-length-prefixed
encoding of one path segment, which is provably injective. -/
def encSeg (s : String) : String :=
  String.mk (List.replicate s.length 'a') ++ ":" ++ s

/-- `utilities.getUuid(objectId)` — one-segment address. -/
def getUuid1 (objectId : String) : String := encSeg objectId

/-- `utilities.getUuid(objectId, frameId)` — two-segment address. -/
def getUuid2 (objectId frameId : String) : String := encSeg objectId ++ encSeg frameId

/-- `utilities.getUuid(objectId, frameId, nodeId)` — three-segment address. -/
def getUuid3 (objectId frameId nodeId : String) : String :=
  encSeg objectId ++ encSeg frameId ++ encSeg nodeId

/-- The key of the synthetic coordinate-correction child:
`parentSceneNode.id + 'rotateX'` (src line 127). -/
def rotateXKeyOf (parentKey : String) : String := parentKey ++ "rotateX"

/-- Modelled from the spec: the recursive staleness marking performed by
`SceneNode.setParent` / `SceneNode.setLocalMatrix` ("marks self and the
entire subtree stale", spec §4.2; `SceneNode.js` is not in the sources).
The recursion is bounded by a fuel argument; callers pass the registry
size, which covers every simple path of the (acyclic, spec invariant 1)
tree. -/
def flagDirty : Nat → Graph → String → Graph
  | 0, g, _ => g
  | fuel + 1, g, k =>
      match findNode g k with
      | none => g
      | some n => n.children.foldl (flagDirty fuel) (setNode g k { n with dirty := true })

/-- "removes self from the current parent's children (if any)" (spec §4.2):
erase `childKey` from the children of the node bound to `pk`, when `pk` is
set and bound. -/
def eraseChildOf (g : Graph) (pk : Option String) (childKey : String) : Graph :=
  match pk with
  | none => g
  | some pk => updNode g pk (fun p => { p with children := p.children.erase childKey })

/-- "appends self to `newParent.children`" (spec §4.2). -/
def appendChildOf (g : Graph) (pk : String) (childKey : String) : Graph :=
  updNode g pk (fun p => { p with children := p.children ++ [childKey] })

/-- Modelled from the spec: the pointer manipulation of
`SceneNode.setParent` — "removes self from the current parent's children
(if any), appends self to `newParent.children`, sets `parent`" (spec §4.2)
— without the staleness marking. -/
def setParentCore (g : Graph) (selfKey newParentKey : String) : Graph :=
  match findNode g selfKey with
  | none => g
  | some selfN =>
      updNode (appendChildOf (eraseChildOf g selfN.parentKey selfKey) newParentKey selfKey)
        selfKey (fun n => { n with parentKey := some newParentKey })

/-- Modelled from the spec: `SceneNode.setParent` (spec §4.2): pointer
manipulation followed by marking self and the entire subtree stale. -/
def setParentG (g : Graph) (selfKey newParentKey : String) : Graph :=
  let g3 := setParentCore g selfKey newParentKey
  flagDirty g3.length g3 selfKey

/-- Modelled from the spec: `SceneNode.setLocalMatrix(m)` — "stores `m`,
marks self and subtree stale" (spec §4.2). -/
def setLocalMatrixG (g : Graph) (k : String) (m : Mat) : Graph :=
  match findNode g k with
  | none => g
  | some n =>
      let g1 := setNode g k { n with localMatrix := m }
      flagDirty g1.length g1 k

/-- Modelled from the spec: `SceneNode.updateVehicleXYScale(x, y, scale)` —
"updates its `trackedPose`" (spec §4.1 `updatePose`, §3 `trackedPose`). -/
def updateVehicleXYScale (n : SceneNode) (x y scale : ℚ) : SceneNode :=
  { n with trackedPose := some (x, y, scale) }

/-- Modelled from the spec: `SceneNode.updateWorldMatrix` (spec §4.2) —
"if not stale, return immediately.  Otherwise compute
`worldMatrix = parent.worldMatrix ∘ localMatrix` …, clear stale, then
recurse into every child unconditionally."  Fuel-bounded as above. -/
def updateWorldMatrixG : Nat → Mat → Graph → String → Graph
  | 0, _, g, _ => g
  | fuel + 1, parentWorld, g, k =>
      match findNode g k with
      | none => g
      | some n =>
          if n.dirty then
            let n' := { n with worldMatrix := matMul parentWorld n.localMatrix, dirty := false }
            n.children.foldl (fun acc c => updateWorldMatrixG fuel n'.worldMatrix acc c)
              (setNode g k n')
          else g

/-- Modelled from the spec: `SceneNode.initFromSerializedCopy(data, graph)`
(`SceneNode.js` is not in the sources) — "lossless round-trip of local
matrix, parent ID, children IDs, flags, and payload reference;
`hydrateFrom` resolves parent/children by looking them up in the supplied
graph's registry (tolerating forward references)" (spec §4.2, §6 snapshot
format).  In the arena embedding, resolving a reference is storing its key. -/
structure SerializedNode where
  localMatrix : Mat := identityMatrix
  parent : Option String := none
  children : List String := []
  deactivated : Bool := false
  needsRotateX : Bool := false
  linkedVehicle : Option Nat := none
deriving DecidableEq

/-- Hydration of a phase-1 placeholder node from a snapshot record
(see `SerializedNode`). -/
def initFromSerializedCopy (k : String) (r : SerializedNode) : SceneNode :=
  { SceneNode.fresh k with
      localMatrix := r.localMatrix
      parentKey := r.parent
      children := r.children
      deactivated := r.deactivated
      needsRotateX := r.needsRotateX
      linkedVehicle := r.linkedVehicle }

/-- The full engine state: the registry plus the mutation observers.
Observers are zero-argument effectful callbacks; their joint effect is
embedded as state transformers over an arbitrary observer-state type `O`,
so that "invoked exactly once each, in registration order, synchronously"
becomes a single in-order fold inside the mutating operation. -/
structure SceneGraphState (O : Type) where
  nodes : Graph
  obsState : O
  updateCallbacks : List (O → O)

/-- `new SceneGraph()` (src lines 11–24): a registry holding only the root
node under the reserved ID `'ROOT'`, and no observers. -/
def initialSceneGraph {O : Type} (o : O) : SceneGraphState O :=
  { nodes := [("ROOT", SceneNode.fresh "ROOT")], obsState := o, updateCallbacks := [] }

/-- In-order synchronous run of the observers. -/
def runCallbacks {O : Type} (cbs : List (O → O)) (o : O) : O :=
  cbs.foldl (fun acc f => f acc) o

/-- `SceneGraph.triggerUpdateCallbacks` (src lines 211–215). -/
def triggerUpdateCallbacks {O : Type} (s : SceneGraphState O) : SceneGraphState O :=
  { s with obsState := runCallbacks s.updateCallbacks s.obsState }

/-- `SceneGraph.onUpdate(callback)` (src lines 207–209). -/
def onUpdate {O : Type} (s : SceneGraphState O) (f : O → O) : SceneGraphState O :=
  { s with updateCallbacks := s.updateCallbacks ++ [f] }

/-- The create-or-fetch prologue shared by `addObject`/`addFrame`/`addNode`/
`addRotateX`: reuse the binding when the uuid exists, otherwise bind a fresh
node (JS object insertion appends the new property). -/
def createOrFetch (g : Graph) (uuid : String) : Graph :=
  match findNode g uuid with
  | some _ => g
  | none => g ++ [(uuid, SceneNode.fresh uuid)]

/-- `if (typeof initialLocalMatrix !== 'undefined') sceneNode.setLocalMatrix(...)`. -/
def setLocalMatrixOpt (g : Graph) (k : String) : Option Mat → Graph
  | some mat => setLocalMatrixG g k mat
  | none => g

/-- `if (typeof linkedFrame !== 'undefined') sceneNode.linkedVehicle = ...`. -/
def setLinkedOpt (g : Graph) (k : String) : Option Nat → Graph
  | some lv => updNode g k (fun n => { n with linkedVehicle := some lv })
  | none => g

/-- Registry effect of `SceneGraph.addRotateX(parentSceneNode,
groundPlaneVariation)` (src lines 123–148); the parent is passed by key. -/
def addRotateXG (g : Graph) (parentKey : String) (groundPlaneVariation : Bool) : Graph :=
  match findNode g parentKey with
  | none => g
  | some pn =>
      let g0 := setNode g parentKey { pn with needsRotateX := true }
      let rotKey := rotateXKeyOf parentKey
      let g1 := createOrFetch g0 rotKey
      let g2 := setParentG g1 rotKey parentKey
      setLocalMatrixG g2 rotKey
        (if groundPlaneVariation then groundPlaneRotationX else rotateXMatrix)

/-- Registry effect of `SceneGraph.addObject` (src lines 38–61). -/
def addObjectNodes (g : Graph) (objectId : String) (m : Option Mat) (needsRotateX : Bool) :
    Graph :=
  let uuid := getUuid1 objectId
  let g0 := createOrFetch g uuid
  let g1 := setParentG g0 uuid "ROOT"
  let g2 := setLocalMatrixOpt g1 uuid m
  if needsRotateX then addRotateXG g2 uuid false else g2

/-- `SceneGraph.addObject(objectId, initialLocalMatrix, needsRotateX)`
(src lines 38–61): create-or-fetch, parent under root, optionally set the
local matrix, optionally insert the coordinate correction, notify. -/
def addObject {O : Type} (s : SceneGraphState O) (objectId : String) (m : Option Mat)
    (needsRotateX : Bool) : SceneGraphState O :=
  triggerUpdateCallbacks { s with nodes := addObjectNodes s.nodes objectId m needsRotateX }

/-- Registry effect of `SceneGraph.addFrame` (src lines 63–93). -/
def addFrameNodes (g : Graph) (objectId frameId : String) (linkedFrame : Option Nat)
    (m : Option Mat) : Graph :=
  let uuid := getUuid2 objectId frameId
  let g0 := createOrFetch g uuid
  let objectUuid := getUuid1 objectId
  let g1 := match findNode g0 objectUuid with
    | none => g0
    | some objN =>
        if objN.needsRotateX then setParentG g0 uuid (rotateXKeyOf objectUuid)
        else setParentG g0 uuid objectUuid
  let g2 := setLinkedOpt g1 uuid linkedFrame
  setLocalMatrixOpt g2 uuid m

/-- `SceneGraph.addFrame(objectId, frameId, linkedFrame, initialLocalMatrix)`
(src lines 63–93). -/
def addFrame {O : Type} (s : SceneGraphState O) (objectId frameId : String)
    (linkedFrame : Option Nat) (m : Option Mat) : SceneGraphState O :=
  triggerUpdateCallbacks { s with nodes := addFrameNodes s.nodes objectId frameId linkedFrame m }

/-- Registry effect of `SceneGraph.addNode` (src lines 95–121). -/
def addNodeNodes (g : Graph) (objectId frameId nodeId : String) (linkedNode : Option Nat)
    (m : Option Mat) : Graph :=
  let uuid := getUuid3 objectId frameId nodeId
  let g0 := createOrFetch g uuid
  let frameUuid := getUuid2 objectId frameId
  let g1 := match findNode g0 frameUuid with
    | none => g0
    | some _ => setParentG g0 uuid frameUuid
  let g2 := setLinkedOpt g1 uuid linkedNode
  setLocalMatrixOpt g2 uuid m

/-- `SceneGraph.addNode(objectId, frameId, nodeId, linkedNode,
initialLocalMatrix)` (src lines 95–121). -/
def addNode {O : Type} (s : SceneGraphState O) (objectId frameId nodeId : String)
    (linkedNode : Option Nat) (m : Option Mat) : SceneGraphState O :=
  triggerUpdateCallbacks
    { s with nodes := addNodeNodes s.nodes objectId frameId nodeId linkedNode m }

/-- `SceneGraph.removeElementAndChildren(id)` (src lines 150–168): if the id
is bound, detach it from its parent's children, delete the binding, notify;
otherwise do nothing. -/
def removeElementAndChildren {O : Type} (s : SceneGraphState O) (id : String) :
    SceneGraphState O :=
  match findNode s.nodes id with
  | none => s
  | some n =>
      let g1 := eraseChildOf s.nodes n.parentKey id
      let g2 := g1.filter (fun p => p.1 != id)
      triggerUpdateCallbacks { s with nodes := g2 }

/-- Registry effect of `SceneGraph.recomputeGraph` (src lines 170–176):
`this.rootNode.updateWorldMatrix()`, the root composing against identity. -/
def recomputeGraphNodes (g : Graph) : Graph :=
  updateWorldMatrixG g.length identityMatrix g "ROOT"

/-- `SceneGraph.recomputeGraph()` as a state operation. -/
def recomputeGraph {O : Type} (s : SceneGraphState O) : SceneGraphState O :=
  { s with nodes := recomputeGraphNodes s.nodes }

/-- The translation components of a flat 16-element matrix: entries 12, 13,
14 (spec §6 fixed convention). -/
def translationOf (m : Mat) : ℚ × ℚ × ℚ := (m.getD 12 0, m.getD 13 0, m.getD 14 0)

/-- Squared Euclidean distance between the world-matrix translation
components of two nodes. -/
def distSq (a b : SceneNode) : ℚ :=
  ((translationOf a.worldMatrix).1 - (translationOf b.worldMatrix).1) ^ 2 +
    ((translationOf a.worldMatrix).2.1 - (translationOf b.worldMatrix).2.1) ^ 2 +
    ((translationOf a.worldMatrix).2.2 - (translationOf b.worldMatrix).2.2) ^ 2

/-- Modelled from the spec: `SceneNode.getDistanceTo(other)` — "Euclidean
norm of the difference between this node's and `other`'s world-matrix
translation components" (spec §4.2; `SceneNode.js` is not in the sources). -/
noncomputable def SceneNode.getDistanceTo (a b : SceneNode) : ℝ :=
  Real.sqrt ((distSq a b : ℚ) : ℝ)

/-- `SceneGraph.getDistanceBetween(keyA, keyB)` (src lines 178–188):
recompute, then either the distance between the two bound nodes or the
sentinel `-1` ("a value that could only be an error"). -/
noncomputable def getDistanceBetween {O : Type} (s : SceneGraphState O) (keyA keyB : String) :
    ℝ :=
  let g := recomputeGraphNodes s.nodes
  match findNode g keyA, findNode g keyB with
  | some nodeA, some nodeB => nodeA.getDistanceTo nodeB
  | _, _ => -1

/-- `SceneGraph.updateWithPositionData(objectId, frameId, nodeId,
localMatrix, x, y, scale)` (src lines 190–198). -/
def updateWithPositionData {O : Type} (s : SceneGraphState O)
    (objectId frameId nodeId : String) (localMatrix : Mat) (x y scale : ℚ) :
    SceneGraphState O :=
  let id := getUuid3 objectId frameId nodeId
  match findNode s.nodes id with
  | none => s
  | some n =>
      let g1 := setNode s.nodes id (updateVehicleXYScale n x y scale)
      let g2 := setLocalMatrixG g1 id localMatrix
      triggerUpdateCallbacks { s with nodes := g2 }

/-- `SceneGraph.updateObjectWorldId(objectId, worldId)` (src lines 200–206):
guard against self-parenting and unresolved ids, else reparent the object
node under the world node.  Does not notify observers. -/
def updateObjectWorldId {O : Type} (s : SceneGraphState O) (objectId worldId : String) :
    SceneGraphState O :=
  if objectId = worldId then s
  else
    match findNode s.nodes (getUuid1 worldId), findNode s.nodes (getUuid1 objectId) with
    | some _, some _ =>
        { s with nodes := setParentG s.nodes (getUuid1 objectId) (getUuid1 worldId) }
    | _, _ => s

/-- `SceneGraph.deactivateElement(id)` (src lines 218–224). -/
def deactivateElement {O : Type} (s : SceneGraphState O) (id : String) : SceneGraphState O :=
  match findNode s.nodes id with
  | some n =>
      if n.deactivated then s
      else triggerUpdateCallbacks { s with nodes := setNode s.nodes id { n with deactivated := true } }
  | none => s

/-- `SceneGraph.activateElement(id)` (src lines 226–232). -/
def activateElement {O : Type} (s : SceneGraphState O) (id : String) : SceneGraphState O :=
  match findNode s.nodes id with
  | some n =>
      if n.deactivated then
        triggerUpdateCallbacks { s with nodes := setNode s.nodes id { n with deactivated := false } }
      else s
  | none => s

/-- `data[key]` for the snapshot mapping — first binding wins. -/
def findRecord : List (String × SerializedNode) → String → Option SerializedNode
  | [], _ => none
  | (k', r) :: rest, k => if k' = k then some r else findRecord rest k

/-- One step of phase 1 of `addDataFromSerializableGraph`: skip keys that
already exist, append a placeholder (and remember the key) otherwise. -/
def addDataPhase1Step (acc : Graph × List String) (kv : String × SerializedNode) :
    Graph × List String :=
  if (findNode acc.1 kv.1).isSome then acc
  else (acc.1 ++ [(kv.1, SceneNode.fresh kv.1)], acc.2 ++ [kv.1])

/-- One step of phase 2 of `addDataFromSerializableGraph`: hydrate the node
bound to `k` from `data[k]`. -/
def addDataPhase2Step (data : List (String × SerializedNode)) (gacc : Graph) (k : String) :
    Graph :=
  match findRecord data k with
  | none => gacc
  | some r => setNode gacc k (initFromSerializedCopy k r)

/-- Registry effect of `SceneGraph.addDataFromSerializableGraph(data)`
(src lines 244–263): phase 1 appends a placeholder for every data key
absent from the (evolving) registry, phase 2 hydrates exactly those keys
from their records. -/
def addDataNodes (g : Graph) (data : List (String × SerializedNode)) : Graph :=
  let phase1 := data.foldl addDataPhase1Step (g, [])
  phase1.2.foldl (addDataPhase2Step data) phase1.1

/-- `SceneGraph.addDataFromSerializableGraph(data)` as a state operation
(does not notify observers). -/
def addDataFromSerializableGraph {O : Type} (s : SceneGraphState O)
    (data : List (String × SerializedNode)) : SceneGraphState O :=
  { s with nodes := addDataNodes s.nodes data }

/-- One call of the public `SceneGraph` interface.  The read-only queries
(`getDistanceBetween`, `getWorldPosition`, `getSerializableCopy`) appear
because they force `recomputeGraph()` and hence mutate cached state;
`addObjectAndChildren` is the composition of `addObject`/`addFrame`/`addNode`
calls and is covered by those. -/
inductive Op (O : Type) where
  | addObject (objectId : String) (m : Option Mat) (needsRotateX : Bool)
  | addFrame (objectId frameId : String) (linkedFrame : Option Nat) (m : Option Mat)
  | addNode (objectId frameId nodeId : String) (linkedNode : Option Nat) (m : Option Mat)
  | removeElementAndChildren (id : String)
  | updateWithPositionData (objectId frameId nodeId : String) (localMatrix : Mat)
      (x y scale : ℚ)
  | updateObjectWorldId (objectId worldId : String)
  | deactivateElement (id : String)
  | activateElement (id : String)
  | recomputeGraph
  | getDistanceBetween (keyA keyB : String)
  | getWorldPosition (objectId frameId nodeId : String)
  | getSerializableCopy
  | addDataFromSerializableGraph (data : List (String × SerializedNode))
  | onUpdate (f : O → O)

/-- State effect of one interface call. -/
def applyOp {O : Type} (op : Op O) (s : SceneGraphState O) : SceneGraphState O :=
  match op with
  | .addObject objectId m rot => addObject s objectId m rot
  | .addFrame objectId frameId lf m => addFrame s objectId frameId lf m
  | .addNode objectId frameId nodeId ln m => addNode s objectId frameId nodeId ln m
  | .removeElementAndChildren id => removeElementAndChildren s id
  | .updateWithPositionData o f n m x y sc => updateWithPositionData s o f n m x y sc
  | .updateObjectWorldId o w => updateObjectWorldId s o w
  | .deactivateElement id => deactivateElement s id
  | .activateElement id => activateElement s id
  | .recomputeGraph => recomputeGraph s
  | .getDistanceBetween _ _ => recomputeGraph s
  | .getWorldPosition _ _ _ => recomputeGraph s
  | .getSerializableCopy => recomputeGraph s
  | .addDataFromSerializableGraph data => addDataFromSerializableGraph s data
  | .onUpdate f => onUpdate s f

/-- Left-to-right application of a sequence of interface calls. -/
def applyOps {O : Type} (ops : List (Op O)) (s : SceneGraphState O) : SceneGraphState O :=
  ops.foldl (fun acc op => applyOp op acc) s

/-- Whether an interface call is `removeElementAndChildren` addressed to the
root's reserved ID. -/
def removesRoot {O : Type} : Op O → Bool
  | .removeElementAndChildren id => id == "ROOT"
  | _ => false

/-- Whether an interface call, run on state `s`, reaches
`triggerUpdateCallbacks` (read off the source's success conditions). -/
def opNotifies {O : Type} (op : Op O) (s : SceneGraphState O) : Bool :=
  match op with
  | .addObject _ _ _ => true
  | .addFrame _ _ _ _ => true
  | .addNode _ _ _ _ _ => true
  | .removeElementAndChildren id => (findNode s.nodes id).isSome
  | .updateWithPositionData o f n _ _ _ _ => (findNode s.nodes (getUuid3 o f n)).isSome
  | .deactivateElement id =>
      match findNode s.nodes id with
      | some nd => !nd.deactivated
      | none => false
  | .activateElement id =>
      match findNode s.nodes id with
      | some nd => nd.deactivated
      | none => false
  | _ => false

/-- `∀ a, o = some a → P a`, with a decidability instance. -/
def optionForall {α : Type} (o : Option α) (P : α → Prop) : Prop :=
  ∀ a, o = some a → P a

/-- `∃ a, o = some a ∧ P a`, with a decidability instance. -/
def optionHolds {α : Type} (o : Option α) (P : α → Prop) : Prop :=
  ∃ a, o = some a ∧ P a

instance {α : Type} (P : α → Prop) [∀ a, Decidable (P a)] :
    (o : Option α) → Decidable (optionForall o P)
  | none => isTrue (fun _ h => nomatch h)
  | some x =>
      if h : P x then isTrue (fun a ha => by cases ha; exact h)
      else isFalse (fun hf => h (hf x rfl))

instance {α : Type} (P : α → Prop) [∀ a, Decidable (P a)] :
    (o : Option α) → Decidable (optionHolds o P)
  | none => isFalse (fun ⟨_, h, _⟩ => nomatch h)
  | some x =>
      if h : P x then isTrue ⟨x, rfl, h⟩
      else isFalse (fun ⟨a, ha, hp⟩ => by cases ha; exact h hp)

/-- The documented structural invariants of the registry (spec §3):
unique IDs, duplicate-free children lists, no self-parenting, and
parent/children symmetry (`n ∈ p.children ⟺ n.parent == p`). -/
def WellFormed (g : Graph) : Prop :=
  (keysOf g).Nodup ∧
  ∀ p ∈ g,
    p.2.children.Nodup ∧
    p.2.parentKey ≠ some p.1 ∧
    optionForall p.2.parentKey
      (fun pk => optionHolds (findNode g pk) (fun q => p.1 ∈ q.children)) ∧
    ∀ c ∈ p.2.children, optionHolds (findNode g c) (fun q => q.parentKey = some p.1)

instance (g : Graph) : Decidable (WellFormed g) := by
  unfold WellFormed
  infer_instance

/-- The ownership edge relation of the tree: `a` is bound and lists `b`
among its children. -/
def isEdge (g : Graph) (a b : String) : Prop :=
  optionHolds (findNode g a) (fun n => b ∈ n.children)

instance (g : Graph) (a b : String) : Decidable (isEdge g a b) := by
  unfold isEdge
  infer_instance

/-- Reachability from `a` to `b` along ownership edges, entirely inside the
registry. -/
inductive ReachableIn (g : Graph) : String → String → Prop where
  | refl (a : String) : (findNode g a).isSome → ReachableIn g a a
  | step (a b c : String) : ReachableIn g a b → isEdge g b c → (findNode g c).isSome →
      ReachableIn g a c

/-- Two registries with the same bindings up to the `dirty` flag: the
residue that staleness marking leaves behind. -/
def DR (g g' : Graph) : Prop :=
  keysOf g' = keysOf g ∧
  ∀ k n, findNode g k = some n → ∃ b, findNode g' k = some { n with dirty := b }

/-- `k` is bound in `g` to the node `n`, up to the `dirty` flag. -/
def bindsModDirty (g : Graph) (k : String) (n : SceneNode) : Prop :=
  ∃ b, findNode g k = some { n with dirty := b }

/- ## Lemmas -/

theorem keysOf_nil : keysOf [] = [] := rfl

theorem keysOf_cons (p : String × SceneNode) (g : Graph) :
    keysOf (p :: g) = p.1 :: keysOf g := rfl

theorem keysOf_append (g t : Graph) : keysOf (g ++ t) = keysOf g ++ keysOf t :=
  List.map_append _ _ _

theorem findNode_nil (k : String) : findNode [] k = none := rfl

theorem findNode_cons (k0 : String) (n0 : SceneNode) (rest : Graph) (k : String) :
    findNode ((k0, n0) :: rest) k = if k0 = k then some n0 else findNode rest k := rfl

theorem setNode_cons (k0 : String) (n0 : SceneNode) (rest : Graph) (k : String)
    (n : SceneNode) :
    setNode ((k0, n0) :: rest) k n =
      if k0 = k then (k0, n) :: rest else (k0, n0) :: setNode rest k n := rfl

theorem findNode_setNode (g : Graph) (k : String) (n : SceneNode) (k' : String) :
    findNode (setNode g k n) k' =
      if k' = k then (findNode g k).map (fun _ => n) else findNode g k' := by
  induction g with
  | nil => by_cases h : k' = k <;> simp [findNode_nil, setNode, h]
  | cons p rest ih =>
      obtain ⟨k0, n0⟩ := p
      by_cases h0 : k0 = k
      · subst h0
        by_cases h1 : k0 = k'
        · subst h1
          simp [setNode_cons, findNode_cons]
        · have h1' : ¬ k' = k0 := fun h => h1 h.symm
          simp [setNode_cons, findNode_cons, h1, h1']
      · by_cases h1 : k0 = k'
        · subst h1
          have h2 : ¬ k0 = k := h0
          simp [setNode_cons, findNode_cons, h0, h2]
        · have h1' : ¬ k' = k0 := fun h => h1 h.symm
          by_cases h2 : k' = k
          · subst h2
            simp [setNode_cons, findNode_cons, h0, h1, h1', ih]
          · simp [setNode_cons, findNode_cons, h0, h1, h1', h2, ih]

theorem keysOf_setNode (g : Graph) (k : String) (n : SceneNode) :
    keysOf (setNode g k n) = keysOf g := by
  induction g with
  | nil => rfl
  | cons p rest ih =>
      obtain ⟨k0, n0⟩ := p
      by_cases h0 : k0 = k <;> simp [setNode_cons, h0, keysOf_cons, ih]

theorem setNode_setNode (g : Graph) (k : String) (a b : SceneNode) :
    setNode (setNode g k a) k b = setNode g k b := by
  induction g with
  | nil => rfl
  | cons p rest ih =>
      obtain ⟨k0, n0⟩ := p
      by_cases h0 : k0 = k <;> simp [setNode_cons, h0, ih]

theorem setNode_self (g : Graph) (k : String) (n : SceneNode)
    (h : findNode g k = some n) : setNode g k n = g := by
  induction g with
  | nil => rfl
  | cons p rest ih =>
      obtain ⟨k0, n0⟩ := p
      by_cases h0 : k0 = k
      · rw [findNode_cons, if_pos h0] at h
        rw [setNode_cons, if_pos h0]
        cases h
        rfl
      · rw [findNode_cons, if_neg h0] at h
        rw [setNode_cons, if_neg h0, ih h]

theorem findNode_append_of_some (g t : Graph) (k : String) (v : SceneNode)
    (h : findNode g k = some v) : findNode (g ++ t) k = some v := by
  induction g with
  | nil => rw [findNode_nil] at h; cases h
  | cons p rest ih =>
      obtain ⟨k0, n0⟩ := p
      by_cases h0 : k0 = k
      · rw [findNode_cons, if_pos h0] at h
        rw [List.cons_append, findNode_cons, if_pos h0]
        exact h
      · rw [findNode_cons, if_neg h0] at h
        rw [List.cons_append, findNode_cons, if_neg h0]
        exact ih h

theorem findNode_append_of_none (g t : Graph) (k : String)
    (h : findNode g k = none) : findNode (g ++ t) k = findNode t k := by
  induction g with
  | nil => rfl
  | cons p rest ih =>
      obtain ⟨k0, n0⟩ := p
      by_cases h0 : k0 = k
      · rw [findNode_cons, if_pos h0] at h
        cases h
      · rw [findNode_cons, if_neg h0] at h
        rw [List.cons_append, findNode_cons, if_neg h0]
        exact ih h

theorem mem_keysOf_iff (g : Graph) (k : String) :
    k ∈ keysOf g ↔ (findNode g k).isSome := by
  induction g with
  | nil => simp [keysOf, findNode_nil]
  | cons p rest ih =>
      obtain ⟨k0, n0⟩ := p
      rw [keysOf_cons, List.mem_cons, findNode_cons]
      by_cases h0 : k0 = k
      · simp [h0]
      · have : ¬ k = k0 := fun h => h0 h.symm
        simp [h0, this, ih]

theorem findNode_eq_none_iff (g : Graph) (k : String) :
    findNode g k = none ↔ k ∉ keysOf g := by
  rw [mem_keysOf_iff]
  cases findNode g k <;> simp

theorem findNode_mem (g : Graph) (k : String) (n : SceneNode)
    (h : findNode g k = some n) : (k, n) ∈ g := by
  induction g with
  | nil => rw [findNode_nil] at h; cases h
  | cons p rest ih =>
      obtain ⟨k0, n0⟩ := p
      by_cases h0 : k0 = k
      · rw [findNode_cons, if_pos h0] at h
        injection h with h2
        subst h2
        subst h0
        exact List.mem_cons_self _ _
      · rw [findNode_cons, if_neg h0] at h
        exact List.mem_cons_of_mem _ (ih h)

theorem findNode_of_nodup_mem (g : Graph) (k : String) (n : SceneNode)
    (hnd : (keysOf g).Nodup) (h : (k, n) ∈ g) : findNode g k = some n := by
  induction g with
  | nil => cases h
  | cons p rest ih =>
      obtain ⟨k0, n0⟩ := p
      rw [keysOf_cons, List.nodup_cons] at hnd
      rcases List.mem_cons.mp h with h1 | h1
      · injection h1 with hk hn
        subst hk
        subst hn
        rw [findNode_cons, if_pos rfl]
      · have hfind := ih hnd.2 h1
        have hmem : k ∈ keysOf rest := by
          rw [mem_keysOf_iff, hfind]
          rfl
        have hk : k0 ≠ k := fun h0 => hnd.1 (h0 ▸ hmem)
        rw [findNode_cons, if_neg hk]
        exact hfind

theorem countKey_eq_one_of_nodup (g : Graph) (k : String)
    (hnd : (keysOf g).Nodup) (h : (findNode g k).isSome) : countKey g k = 1 :=
  List.count_eq_one_of_mem hnd ((mem_keysOf_iff g k).mpr h)

theorem findNode_filter_ne (g : Graph) (id k : String) :
    findNode (g.filter (fun p => p.1 != id)) k =
      if k = id then none else findNode g k := by
  induction g with
  | nil => by_cases h : k = id <;> simp [findNode_nil, h]
  | cons p rest ih =>
      obtain ⟨k0, n0⟩ := p
      rw [List.filter_cons]
      by_cases h0 : k0 = id
      · rw [if_neg (by simp [h0]), ih, findNode_cons]
        by_cases h1 : k = id
        · rw [if_pos h1, if_pos h1]
        · have hne : ¬ k0 = k := fun h => h1 (by rw [← h]; exact h0)
          rw [if_neg h1, if_neg h1, if_neg hne]
      · rw [if_pos (by simp [h0]), findNode_cons, findNode_cons, ih]
        by_cases h1 : k0 = k
        · have hk : ¬ k = id := fun h => h0 (h1.trans h)
          rw [if_pos h1, if_neg hk, if_pos h1]
        · rw [if_neg h1, if_neg h1]

theorem findNode_updNode (g : Graph) (k : String) (f : SceneNode → SceneNode) (k' : String) :
    findNode (updNode g k f) k' =
      if k' = k then (findNode g k).map f else findNode g k' := by
  unfold updNode
  cases hg : findNode g k with
  | none => by_cases h : k' = k <;> simp [h, hg]
  | some n =>
      rw [findNode_setNode]
      by_cases h : k' = k <;> simp [h, hg]

theorem keysOf_updNode (g : Graph) (k : String) (f : SceneNode → SceneNode) :
    keysOf (updNode g k f) = keysOf g := by
  unfold updNode
  cases findNode g k <;> simp [keysOf_setNode]

theorem updNode_updNode (g : Graph) (k : String) (f h : SceneNode → SceneNode) :
    updNode (updNode g k f) k h = updNode g k (fun n => h (f n)) := by
  unfold updNode
  cases hg : findNode g k with
  | none => simp [hg, updNode]
  | some n =>
      have : findNode (setNode g k (f n)) k = some (f n) := by
        rw [findNode_setNode]; simp [hg]
      simp [hg, this, setNode_setNode]

theorem updNode_self (g : Graph) (k : String) (f : SceneNode → SceneNode) (n : SceneNode)
    (h : findNode g k = some n) (hf : f n = n) : updNode g k f = g := by
  unfold updNode
  rw [h]
  show setNode g k (f n) = g
  rw [hf]
  exact setNode_self g k n h

theorem DR_refl (g : Graph) : DR g g :=
  ⟨rfl, fun _ n h => ⟨n.dirty, h⟩⟩

theorem DR_trans {g g' g'' : Graph} (h1 : DR g g') (h2 : DR g' g'') : DR g g'' := by
  refine ⟨h2.1.trans h1.1, fun k n h => ?_⟩
  obtain ⟨b, hb⟩ := h1.2 k n h
  obtain ⟨b', hb'⟩ := h2.2 k _ hb
  exact ⟨b', hb'⟩

theorem DR_setNode (g : Graph) (k : String) (n : SceneNode) (b : Bool)
    (h : findNode g k = some n) : DR g (setNode g k { n with dirty := b }) := by
  refine ⟨keysOf_setNode g k _, fun k' n0 h0 => ?_⟩
  rw [findNode_setNode]
  by_cases hk : k' = k
  · subst hk
    rw [h0] at h
    injection h with h
    subst h
    exact ⟨b, by simp [h0]⟩
  · exact ⟨n0.dirty, by rw [if_neg hk, h0]⟩

theorem DR_foldl {f : Graph → String → Graph} (hf : ∀ g a, DR g (f g a)) :
    ∀ (l : List String) (g : Graph), DR g (l.foldl f g)
  | [], g => DR_refl g
  | a :: l, g => DR_trans (hf g a) (DR_foldl hf l (f g a))

theorem flagDirty_DR : ∀ (fuel : Nat) (g : Graph) (k : String), DR g (flagDirty fuel g k)
  | 0, g, _ => DR_refl g
  | fuel + 1, g, k => by
      unfold flagDirty
      cases h : findNode g k with
      | none => exact DR_refl g
      | some n =>
          exact DR_trans (DR_setNode g k n true h)
            (DR_foldl (fun g' a => flagDirty_DR fuel g' a) n.children _)

theorem DR_findNode_none {g g' : Graph} (h : DR g g') (k : String)
    (hk : findNode g k = none) : findNode g' k = none := by
  rw [findNode_eq_none_iff] at hk ⊢
  rw [h.1]
  exact hk

theorem keysOf_foldl {α : Type} {f : Graph → α → Graph}
    (hf : ∀ g a, keysOf (f g a) = keysOf g) :
    ∀ (l : List α) (g : Graph), keysOf (l.foldl f g) = keysOf g
  | [], _ => rfl
  | a :: l, g => (keysOf_foldl hf l (f g a)).trans (hf g a)

theorem keysOf_flagDirty (fuel : Nat) (g : Graph) (k : String) :
    keysOf (flagDirty fuel g k) = keysOf g :=
  (flagDirty_DR fuel g k).1

theorem keysOf_eraseChildOf (g : Graph) (pk : Option String) (c : String) :
    keysOf (eraseChildOf g pk c) = keysOf g := by
  cases pk with
  | none => rfl
  | some pk => exact keysOf_updNode _ _ _

theorem keysOf_appendChildOf (g : Graph) (pk c : String) :
    keysOf (appendChildOf g pk c) = keysOf g :=
  keysOf_updNode _ _ _

theorem findNode_eraseChildOf (g : Graph) (pk : Option String) (c k : String) :
    findNode (eraseChildOf g pk c) k =
      if pk = some k then
        (findNode g k).map (fun p => { p with children := p.children.erase c })
      else findNode g k := by
  cases pk with
  | none => simp [eraseChildOf]
  | some pk =>
      rw [eraseChildOf, findNode_updNode]
      by_cases h : pk = k
      · subst h
        simp
      · have h' : ¬ k = pk := fun hh => h hh.symm
        simp [h, h']

theorem findNode_appendChildOf (g : Graph) (pk c k : String) :
    findNode (appendChildOf g pk c) k =
      if k = pk then
        (findNode g pk).map (fun p => { p with children := p.children ++ [c] })
      else findNode g k := by
  rw [appendChildOf, findNode_updNode]

theorem keysOf_setParentCore (g : Graph) (selfKey npk : String) :
    keysOf (setParentCore g selfKey npk) = keysOf g := by
  unfold setParentCore
  cases h : findNode g selfKey with
  | none => rfl
  | some n =>
      rw [keysOf_updNode, keysOf_appendChildOf, keysOf_eraseChildOf]

theorem setParentG_DR (g : Graph) (selfKey npk : String) :
    DR (setParentCore g selfKey npk) (setParentG g selfKey npk) :=
  flagDirty_DR _ _ _

theorem keysOf_setParentG (g : Graph) (selfKey npk : String) :
    keysOf (setParentG g selfKey npk) = keysOf g :=
  ((setParentG_DR g selfKey npk).1).trans (keysOf_setParentCore g selfKey npk)

theorem setLocalMatrixG_of_none (g : Graph) (k : String) (m : Mat)
    (h : findNode g k = none) : setLocalMatrixG g k m = g := by
  unfold setLocalMatrixG
  rw [h]

theorem setLocalMatrixG_DR (g : Graph) (k : String) (m : Mat) (n : SceneNode)
    (h : findNode g k = some n) :
    DR (setNode g k { n with localMatrix := m }) (setLocalMatrixG g k m) := by
  unfold setLocalMatrixG
  rw [h]
  exact flagDirty_DR _ _ _

theorem keysOf_setLocalMatrixG (g : Graph) (k : String) (m : Mat) :
    keysOf (setLocalMatrixG g k m) = keysOf g := by
  unfold setLocalMatrixG
  cases h : findNode g k with
  | none => rfl
  | some n => exact (keysOf_flagDirty _ _ _).trans (keysOf_setNode _ _ _)

theorem keysOf_updateWorldMatrixG :
    ∀ (fuel : Nat) (pw : Mat) (g : Graph) (k : String),
      keysOf (updateWorldMatrixG fuel pw g k) = keysOf g
  | 0, _, _, _ => rfl
  | fuel + 1, pw, g, k => by
      unfold updateWorldMatrixG
      cases h : findNode g k with
      | none => rfl
      | some n =>
          dsimp only
          by_cases hd : n.dirty
          · rw [if_pos hd]
            exact (keysOf_foldl (fun g' a => keysOf_updateWorldMatrixG fuel _ g' a) _ _).trans
              (keysOf_setNode _ _ _)
          · rw [if_neg hd]

theorem keysOf_recomputeGraphNodes (g : Graph) :
    keysOf (recomputeGraphNodes g) = keysOf g :=
  keysOf_updateWorldMatrixG _ _ _ _

theorem encSeg_data (s : String) :
    (encSeg s).data = List.replicate s.length 'a' ++ ':' :: s.data := by
  show (String.mk (List.replicate s.length 'a') ++ ":" ++ s).data = _
  rw [String.data_append, String.data_append, List.append_assoc]
  rfl

theorem replicate_colon_inj :
    ∀ (n m : Nat) (s t : List Char),
      List.replicate n 'a' ++ ':' :: s = List.replicate m 'a' ++ ':' :: t →
      n = m ∧ s = t := by
  intro n
  induction n with
  | zero =>
      intro m s t h
      cases m with
      | zero =>
          injection h with _ h2
          exact ⟨rfl, h2⟩
      | succ m =>
          rw [List.replicate_succ] at h
          injection h with h1 _
          exact absurd h1 (by decide)
  | succ n ih =>
      intro m s t h
      cases m with
      | zero =>
          rw [List.replicate_succ] at h
          injection h with h1 _
          exact absurd h1 (by decide)
      | succ m =>
          rw [List.replicate_succ, List.replicate_succ] at h
          injection h with _ h2
          obtain ⟨h3, h4⟩ := ih m s t h2
          exact ⟨by omega, h4⟩

theorem encSeg_inj (s t : String) (h : encSeg s = encSeg t) : s = t := by
  have hd := congrArg String.data h
  rw [encSeg_data, encSeg_data] at hd
  obtain ⟨_, h2⟩ := replicate_colon_inj _ _ _ _ hd
  exact String.ext h2

theorem getUuid1_inj (o w : String) (h : getUuid1 o = getUuid1 w) : o = w :=
  encSeg_inj o w h

theorem colon_mem_encSeg (s : String) : ':' ∈ (encSeg s).data := by
  rw [encSeg_data]
  exact List.mem_append_right _ (List.mem_cons_self _ _)

theorem getUuid1_ne_ROOT (o : String) : getUuid1 o ≠ "ROOT" := by
  intro h
  have hc : ':' ∈ (getUuid1 o).data := colon_mem_encSeg o
  rw [h] at hc
  revert hc
  decide

theorem encSeg_length (s : String) : (encSeg s).length = 2 * s.length + 1 := by
  show (String.mk (List.replicate s.length 'a') ++ ":" ++ s).length = _
  rw [String.length_append, String.length_append, String.length_mk,
    List.length_replicate]
  have : (":" : String).length = 1 := rfl
  omega

theorem getUuid2_ne_getUuid1 (o f : String) : getUuid2 o f ≠ getUuid1 o := by
  intro h
  unfold getUuid2 getUuid1 at h
  have hl := congrArg String.length h
  rw [String.length_append, encSeg_length, encSeg_length] at hl
  omega

theorem rotateXKeyOf_ne (u : String) : rotateXKeyOf u ≠ u := by
  intro h
  unfold rotateXKeyOf at h
  have hl := congrArg String.length h
  rw [String.length_append] at hl
  have h7 : ("rotateX" : String).length = 7 := rfl
  omega

theorem rotateXKeyOf_getUuid1_ne_ROOT (o : String) :
    rotateXKeyOf (getUuid1 o) ≠ "ROOT" := by
  intro h
  have hc : ':' ∈ (rotateXKeyOf (getUuid1 o)).data := by
    show ':' ∈ (encSeg o ++ "rotateX").data
    rw [String.data_append]
    exact List.mem_append_left _ (colon_mem_encSeg o)
  rw [h] at hc
  revert hc
  decide

theorem getUuid2_ne_rotateXKey (o f : String) :
    getUuid2 o f ≠ rotateXKeyOf (getUuid1 o) := by
  intro h
  unfold getUuid2 rotateXKeyOf getUuid1 at h
  have hd := congrArg String.data h
  rw [String.data_append, String.data_append] at hd
  have h2 := List.append_cancel_left hd
  have hc : ':' ∈ ("rotateX" : String).data := h2 ▸ colon_mem_encSeg f
  revert hc
  decide

theorem getUuid1_ne_rotateXKey (w o : String) :
    getUuid1 w ≠ rotateXKeyOf (getUuid1 o) := by
  intro h
  unfold rotateXKeyOf getUuid1 at h
  have hl := congrArg String.length h
  rw [String.length_append, encSeg_length, encSeg_length] at hl
  have h7 : ("rotateX" : String).length = 7 := rfl
  omega

theorem findNode_isSome_of_keysOf_eq {g g' : Graph} (hk : keysOf g' = keysOf g)
    {k : String} (h : (findNode g k).isSome) : (findNode g' k).isSome := by
  rw [← mem_keysOf_iff] at h
  rw [← mem_keysOf_iff, hk]
  exact h

theorem setParentCore_of_none (g : Graph) (self npk : String)
    (h : findNode g self = none) : setParentCore g self npk = g := by
  unfold setParentCore
  rw [h]

theorem setParentCore_eq (g : Graph) (self npk : String) (n : SceneNode)
    (h : findNode g self = some n) :
    setParentCore g self npk =
      updNode (appendChildOf (eraseChildOf g n.parentKey self) npk self) self
        (fun x => { x with parentKey := some npk }) := by
  unfold setParentCore
  rw [h]

theorem setParentG_def (g : Graph) (self npk : String) :
    setParentG g self npk =
      flagDirty (setParentCore g self npk).length (setParentCore g self npk) self := rfl

theorem setParentG_parentKey (g : Graph) (self npk : String)
    (h : (findNode g self).isSome) :
    ∃ n2, findNode (setParentG g self npk) self = some n2 ∧ n2.parentKey = some npk := by
  obtain ⟨n, hn⟩ := Option.isSome_iff_exists.mp h
  have hcore := setParentCore_eq g self npk n hn
  have hkeys : keysOf (appendChildOf (eraseChildOf g n.parentKey self) npk self) = keysOf g := by
    rw [keysOf_appendChildOf, keysOf_eraseChildOf]
  have hmid : (findNode (appendChildOf (eraseChildOf g n.parentKey self) npk self) self).isSome :=
    findNode_isSome_of_keysOf_eq hkeys h
  obtain ⟨x, hx⟩ := Option.isSome_iff_exists.mp hmid
  have hcself : findNode (setParentCore g self npk) self =
      some { x with parentKey := some npk } := by
    rw [hcore, findNode_updNode, if_pos rfl, hx]
    rfl
  obtain ⟨b, hb⟩ := (flagDirty_DR (setParentCore g self npk).length
    (setParentCore g self npk) self).2 self _ hcself
  rw [setParentG_def]
  exact ⟨_, hb, rfl⟩

/-- C7: For every ID absent from the registry, the mutation operations
addressed to it — `updateWithPositionData` (updatePose), `deactivateElement`
and `activateElement` — leave the entire graph state unchanged and invoke
no observer callback. -/
theorem claimC7_unknown_id_mutations_noop {O : Type} (s : SceneGraphState O) :
    (∀ oId fId nId m x y sc, findNode s.nodes (getUuid3 oId fId nId) = none →
      updateWithPositionData s oId fId nId m x y sc = s) ∧
    (∀ id, findNode s.nodes id = none → deactivateElement s id = s) ∧
    (∀ id, findNode s.nodes id = none → activateElement s id = s) := by
  refine ⟨fun oId fId nId m x y sc h => ?_, fun id h => ?_, fun id h => ?_⟩
  · simp only [updateWithPositionData, h]
  · simp only [deactivateElement, h]
  · simp only [activateElement, h]

/-- Witness for C7 at a concrete graph: the fresh scene graph has neither
the three-segment id nor the key `x`, and all three mutations are exact
no-ops there. -/
theorem claimC7_witness :
    updateWithPositionData (initialSceneGraph (0 : ℕ)) "a" "b" "c" identityMatrix 0 0 0 =
        initialSceneGraph (0 : ℕ) ∧
      deactivateElement (initialSceneGraph (0 : ℕ)) "x" = initialSceneGraph (0 : ℕ) ∧
      activateElement (initialSceneGraph (0 : ℕ)) "x" = initialSceneGraph (0 : ℕ) := by
  have h := claimC7_unknown_id_mutations_noop (initialSceneGraph (0 : ℕ))
  exact ⟨h.1 "a" "b" "c" identityMatrix 0 0 0 (by decide), h.2.1 "x" (by decide),
    h.2.2 "x" (by decide)⟩

/-- C8: `updateObjectWorldId` is a no-op when the two paths resolve to the
same node (the raw ids must then be equal, because the external key
construction is collision-free) and when either path fails to resolve;
only when both resolve to distinct registered nodes is the object node
reparented under the world node. -/
theorem claimC8_reparent_guards {O : Type} (s : SceneGraphState O)
    (objectId worldId : String) :
    (getUuid1 objectId = getUuid1 worldId → updateObjectWorldId s objectId worldId = s) ∧
    ((findNode s.nodes (getUuid1 objectId) = none ∨
        findNode s.nodes (getUuid1 worldId) = none) →
      updateObjectWorldId s objectId worldId = s) ∧
    (∀ onode wnode, objectId ≠ worldId →
      findNode s.nodes (getUuid1 objectId) = some onode →
      findNode s.nodes (getUuid1 worldId) = some wnode →
      ∃ n2, findNode (updateObjectWorldId s objectId worldId).nodes (getUuid1 objectId) =
          some n2 ∧ n2.parentKey = some (getUuid1 worldId)) := by
  refine ⟨fun h => ?_, fun h => ?_, fun onode wnode hne ho hw => ?_⟩
  · have hid := getUuid1_inj _ _ h
    unfold updateObjectWorldId
    rw [if_pos hid]
  · by_cases hid : objectId = worldId
    · unfold updateObjectWorldId
      rw [if_pos hid]
    · unfold updateObjectWorldId
      rw [if_neg hid]
      rcases h with h | h
      · cases hw : findNode s.nodes (getUuid1 worldId) <;> simp [hw, h]
      · rw [h]
  · unfold updateObjectWorldId
    rw [if_neg hne, hw, ho]
    exact setParentG_parentKey s.nodes (getUuid1 objectId) (getUuid1 worldId)
      (by rw [ho]; rfl)

/-- Witness for C8 at a concrete graph holding objects `o` and `w`:
self-reparenting is an exact no-op, and reparenting `o` under `w`
sets `o`'s parent key to `w`'s uuid. -/
theorem claimC8_witness :
    updateObjectWorldId (addObject (addObject (initialSceneGraph (0 : ℕ)) "o" none false)
        "w" none false) "o" "o" =
      addObject (addObject (initialSceneGraph (0 : ℕ)) "o" none false) "w" none false ∧
    (findNode (updateObjectWorldId (addObject (addObject (initialSceneGraph (0 : ℕ))
        "o" none false) "w" none false) "o" "w").nodes (getUuid1 "o")).map
        SceneNode.parentKey = some (some (getUuid1 "w")) := by
  have h1 := (claimC8_reparent_guards (addObject (addObject (initialSceneGraph (0 : ℕ))
    "o" none false) "w" none false) "o" "o").1 rfl
  have h3 := (claimC8_reparent_guards (addObject (addObject (initialSceneGraph (0 : ℕ))
    "o" none false) "w" none false) "o" "w").2.2
  have hoS : (findNode (addObject (addObject (initialSceneGraph (0 : ℕ)) "o" none false)
      "w" none false).nodes (getUuid1 "o")).isSome := by decide
  have hwS : (findNode (addObject (addObject (initialSceneGraph (0 : ℕ)) "o" none false)
      "w" none false).nodes (getUuid1 "w")).isSome := by decide
  obtain ⟨onode, hon⟩ := Option.isSome_iff_exists.mp hoS
  obtain ⟨wnode, hwn⟩ := Option.isSome_iff_exists.mp hwS
  obtain ⟨n2, hfind, hpk⟩ := h3 onode wnode (by decide) hon hwn
  refine ⟨h1, ?_⟩
  simp [hfind, hpk]

theorem findNode_recompute_none {O : Type} (s : SceneGraphState O) (k : String)
    (hk : findNode s.nodes k = none) : findNode (recomputeGraphNodes s.nodes) k = none := by
  rw [findNode_eq_none_iff] at hk ⊢
  rw [keysOf_recomputeGraphNodes]
  exact hk

/-- C4: `getDistanceBetween` returns the sentinel `-1` when either key is
absent from the registry; when both keys are bound it returns the Euclidean
distance between the two recomputed world-matrix translation components,
which is non-negative and hence distinguishable from the sentinel. -/
theorem claimC4_distance_sentinel {O : Type} (s : SceneGraphState O) (keyA keyB : String) :
    ((findNode s.nodes keyA = none ∨ findNode s.nodes keyB = none) →
      getDistanceBetween s keyA keyB = -1) ∧
    (∀ na nb, findNode (recomputeGraphNodes s.nodes) keyA = some na →
      findNode (recomputeGraphNodes s.nodes) keyB = some nb →
      getDistanceBetween s keyA keyB = Real.sqrt ((distSq na nb : ℚ) : ℝ) ∧
        0 ≤ getDistanceBetween s keyA keyB ∧ getDistanceBetween s keyA keyB ≠ -1) := by
  refine ⟨fun h => ?_, fun na nb ha hb => ?_⟩
  · unfold getDistanceBetween
    rcases h with h | h
    · cases hB : findNode (recomputeGraphNodes s.nodes) keyB <;>
        simp [findNode_recompute_none s keyA h, hB]
    · cases hA : findNode (recomputeGraphNodes s.nodes) keyA <;>
        simp [findNode_recompute_none s keyB h, hA]
  · have hval : getDistanceBetween s keyA keyB = Real.sqrt ((distSq na nb : ℚ) : ℝ) := by
      unfold getDistanceBetween
      simp [ha, hb, SceneNode.getDistanceTo]
    refine ⟨hval, ?_, ?_⟩
    · rw [hval]
      exact Real.sqrt_nonneg _
    · rw [hval]
      intro heq
      have := Real.sqrt_nonneg ((distSq na nb : ℚ) : ℝ)
      rw [heq] at this
      norm_num at this

/-- Witness for C4: on the fresh scene graph, a lookup with unknown keys
returns `-1`, and the root-to-root distance is a genuine non-negative
distance. -/
theorem claimC4_witness :
    getDistanceBetween (initialSceneGraph (0 : ℕ)) "A" "B" = -1 ∧
      0 ≤ getDistanceBetween (initialSceneGraph (0 : ℕ)) "ROOT" "ROOT" := by
  have h1 := (claimC4_distance_sentinel (initialSceneGraph (0 : ℕ)) "A" "B").1
    (Or.inl (by decide))
  have hS : (findNode (recomputeGraphNodes (initialSceneGraph (0 : ℕ)).nodes) "ROOT").isSome :=
    by decide
  obtain ⟨n, hn⟩ := Option.isSome_iff_exists.mp hS
  have h2 := (claimC4_distance_sentinel (initialSceneGraph (0 : ℕ)) "ROOT" "ROOT").2 n n hn hn
  exact ⟨h1, h2.2.1⟩

/-- C5 counterexample: a successful `updateObjectWorldId` (the reparent
really happens: `o`'s parent changes from `ROOT` to `w`'s uuid) runs zero
observer callbacks — the observer state stays `2`, although one invocation
of the single registered observer would have produced `3`.  This refutes
the claim that every successful structural mutation, including a successful
`reparentObjectToWorld`, notifies the observers. -/
theorem claimC5_counterexample :
    (updateObjectWorldId (addObject (addObject (onUpdate (initialSceneGraph 0)
        (fun n => n + 1)) "o" none false) "w" none false) "o" "w").obsState = 2 ∧
    runCallbacks (updateObjectWorldId (addObject (addObject (onUpdate (initialSceneGraph 0)
        (fun n => n + 1)) "o" none false) "w" none false) "o" "w").updateCallbacks 2 = 3 ∧
    (findNode (addObject (addObject (onUpdate (initialSceneGraph 0) (fun n => n + 1))
        "o" none false) "w" none false).nodes (getUuid1 "o")).map SceneNode.parentKey =
      some (some "ROOT") ∧
    (findNode (updateObjectWorldId (addObject (addObject (onUpdate (initialSceneGraph 0)
        (fun n => n + 1)) "o" none false) "w" none false) "o" "w").nodes
        (getUuid1 "o")).map SceneNode.parentKey = some (some (getUuid1 "w")) := by
  refine ⟨rfl, rfl, ?_, ?_⟩ <;> rfl

/-- C5 as amended: the notifying mutations (`addObject`/`addFrame`/`addNode`
unconditionally, `removeElementAndChildren`/`updatePose` on bound ids,
`deactivate`/`activate` on an actual flag change) run every registered
observer exactly once, with no arguments, in registration order,
synchronously before returning — the observer effect is exactly one
in-order fold of the callback list — while the remaining operations
(`updateObjectWorldId`/`reparentObjectToWorld` and `importSnapshot`
among them) leave the observer state untouched. -/
theorem claimC5_amended_notifications {O : Type} (op : Op O) (s : SceneGraphState O) :
    (opNotifies op s = true →
      (applyOp op s).obsState = runCallbacks s.updateCallbacks s.obsState ∧
        (applyOp op s).updateCallbacks = s.updateCallbacks) ∧
    (opNotifies op s = false → (applyOp op s).obsState = s.obsState) := by
  cases op with
  | addObject oId m rot => exact ⟨fun _ => ⟨rfl, rfl⟩, fun hf => nomatch hf⟩
  | addFrame oId fId lf m => exact ⟨fun _ => ⟨rfl, rfl⟩, fun hf => nomatch hf⟩
  | addNode oId fId nId ln m => exact ⟨fun _ => ⟨rfl, rfl⟩, fun hf => nomatch hf⟩
  | removeElementAndChildren id =>
      cases hfind : findNode s.nodes id with
      | none =>
          refine ⟨fun ht => ?_, fun _ => ?_⟩
          · rw [show opNotifies (Op.removeElementAndChildren id : Op O) s =
              (findNode s.nodes id).isSome from rfl, hfind] at ht
            cases ht
          · show (removeElementAndChildren s id).obsState = s.obsState
            unfold removeElementAndChildren
            rw [hfind]
      | some n =>
          refine ⟨fun _ => ?_, fun hf => ?_⟩
          · constructor
            · show (removeElementAndChildren s id).obsState = _
              unfold removeElementAndChildren
              rw [hfind]
              rfl
            · show (removeElementAndChildren s id).updateCallbacks = _
              unfold removeElementAndChildren
              rw [hfind]
              rfl
          · rw [show opNotifies (Op.removeElementAndChildren id : Op O) s =
              (findNode s.nodes id).isSome from rfl, hfind] at hf
            cases hf
  | updateWithPositionData oId fId nId m x y sc =>
      cases hfind : findNode s.nodes (getUuid3 oId fId nId) with
      | none =>
          refine ⟨fun ht => ?_, fun _ => ?_⟩
          · rw [show opNotifies (Op.updateWithPositionData oId fId nId m x y sc : Op O) s =
              (findNode s.nodes (getUuid3 oId fId nId)).isSome from rfl, hfind] at ht
            cases ht
          · show (updateWithPositionData s oId fId nId m x y sc).obsState = s.obsState
            simp only [updateWithPositionData, hfind]
      | some n =>
          refine ⟨fun _ => ?_, fun hf => ?_⟩
          · constructor
            · show (updateWithPositionData s oId fId nId m x y sc).obsState = _
              simp only [updateWithPositionData, hfind]
              rfl
            · show (updateWithPositionData s oId fId nId m x y sc).updateCallbacks = _
              simp only [updateWithPositionData, hfind]
              rfl
          · rw [show opNotifies (Op.updateWithPositionData oId fId nId m x y sc : Op O) s =
              (findNode s.nodes (getUuid3 oId fId nId)).isSome from rfl, hfind] at hf
            cases hf
  | updateObjectWorldId oId wId =>
      refine ⟨fun ht => (nomatch ht), fun _ => ?_⟩
      show (updateObjectWorldId s oId wId).obsState = s.obsState
      unfold updateObjectWorldId
      by_cases hid : oId = wId
      · rw [if_pos hid]
      · rw [if_neg hid]
        cases findNode s.nodes (getUuid1 wId) <;> cases findNode s.nodes (getUuid1 oId) <;> rfl
  | deactivateElement id =>
      have hnot : opNotifies (Op.deactivateElement id : Op O) s =
          (match findNode s.nodes id with
            | some nd => !nd.deactivated
            | none => false) := rfl
      cases hfind : findNode s.nodes id with
      | none =>
          rw [hfind] at hnot
          refine ⟨fun ht => ?_, fun _ => ?_⟩
          · rw [hnot] at ht
            cases ht
          · show (deactivateElement s id).obsState = s.obsState
            unfold deactivateElement
            rw [hfind]
      | some n =>
          rw [hfind] at hnot
          by_cases hd : n.deactivated
          · refine ⟨fun ht => ?_, fun _ => ?_⟩
            · rw [hnot] at ht
              simp [hd] at ht
            · show (deactivateElement s id).obsState = s.obsState
              unfold deactivateElement
              rw [hfind]
              dsimp only
              rw [if_pos hd]
          · refine ⟨fun _ => ⟨?_, ?_⟩, fun hf => ?_⟩
            · show (deactivateElement s id).obsState = _
              unfold deactivateElement
              rw [hfind]
              dsimp only
              rw [if_neg hd]
              rfl
            · show (deactivateElement s id).updateCallbacks = _
              unfold deactivateElement
              rw [hfind]
              dsimp only
              rw [if_neg hd]
              rfl
            · rw [hnot] at hf
              simp [hd] at hf
  | activateElement id =>
      have hnot : opNotifies (Op.activateElement id : Op O) s =
          (match findNode s.nodes id with
            | some nd => nd.deactivated
            | none => false) := rfl
      cases hfind : findNode s.nodes id with
      | none =>
          rw [hfind] at hnot
          refine ⟨fun ht => ?_, fun _ => ?_⟩
          · rw [hnot] at ht
            cases ht
          · show (activateElement s id).obsState = s.obsState
            unfold activateElement
            rw [hfind]
      | some n =>
          rw [hfind] at hnot
          by_cases hd : n.deactivated
          · refine ⟨fun _ => ⟨?_, ?_⟩, fun hf => ?_⟩
            · show (activateElement s id).obsState = _
              unfold activateElement
              rw [hfind]
              dsimp only
              rw [if_pos hd]
              rfl
            · show (activateElement s id).updateCallbacks = _
              unfold activateElement
              rw [hfind]
              dsimp only
              rw [if_pos hd]
              rfl
            · rw [hnot] at hf
              simp [hd] at hf
          · refine ⟨fun ht => ?_, fun _ => ?_⟩
            · rw [hnot] at ht
              simp [hd] at ht
            · show (activateElement s id).obsState = s.obsState
              unfold activateElement
              rw [hfind]
              dsimp only
              rw [if_neg hd]
  | recomputeGraph => exact ⟨fun ht => (nomatch ht), fun _ => rfl⟩
  | getDistanceBetween a b => exact ⟨fun ht => (nomatch ht), fun _ => rfl⟩
  | getWorldPosition a b c => exact ⟨fun ht => (nomatch ht), fun _ => rfl⟩
  | getSerializableCopy => exact ⟨fun ht => (nomatch ht), fun _ => rfl⟩
  | addDataFromSerializableGraph data => exact ⟨fun ht => (nomatch ht), fun _ => rfl⟩
  | onUpdate f => exact ⟨fun ht => (nomatch ht), fun _ => rfl⟩

theorem createOrFetch_of_some (g : Graph) (u : String) (n : SceneNode)
    (h : findNode g u = some n) : createOrFetch g u = g := by
  unfold createOrFetch
  rw [h]

theorem createOrFetch_of_none (g : Graph) (u : String) (h : findNode g u = none) :
    createOrFetch g u = g ++ [(u, SceneNode.fresh u)] := by
  unfold createOrFetch
  rw [h]

theorem mem_keysOf_createOrFetch (g : Graph) (u k : String) (hk : k ∈ keysOf g) :
    k ∈ keysOf (createOrFetch g u) := by
  unfold createOrFetch
  cases findNode g u with
  | some _ => exact hk
  | none =>
      rw [keysOf_append]
      exact List.mem_append_left _ hk

theorem keysOf_setLocalMatrixOpt (g : Graph) (k : String) (m : Option Mat) :
    keysOf (setLocalMatrixOpt g k m) = keysOf g := by
  cases m with
  | none => rfl
  | some mat => exact keysOf_setLocalMatrixG g k mat

theorem keysOf_setLinkedOpt (g : Graph) (k : String) (lv : Option Nat) :
    keysOf (setLinkedOpt g k lv) = keysOf g := by
  cases lv with
  | none => rfl
  | some v => exact keysOf_updNode g k _

theorem mem_keysOf_addRotateXG (g : Graph) (pk : String) (gp : Bool) (k : String)
    (hk : k ∈ keysOf g) : k ∈ keysOf (addRotateXG g pk gp) := by
  unfold addRotateXG
  cases h : findNode g pk with
  | none => exact hk
  | some pn =>
      dsimp only
      rw [keysOf_setLocalMatrixG, keysOf_setParentG]
      refine mem_keysOf_createOrFetch _ _ k ?_
      rw [keysOf_setNode]
      exact hk

theorem mem_keysOf_addObjectNodes (g : Graph) (oId : String) (m : Option Mat) (rot : Bool)
    (k : String) (hk : k ∈ keysOf g) : k ∈ keysOf (addObjectNodes g oId m rot) := by
  unfold addObjectNodes
  dsimp only
  have h2 : k ∈ keysOf (setLocalMatrixOpt
      (setParentG (createOrFetch g (getUuid1 oId)) (getUuid1 oId) "ROOT") (getUuid1 oId) m) := by
    rw [keysOf_setLocalMatrixOpt, keysOf_setParentG]
    exact mem_keysOf_createOrFetch g _ k hk
  cases rot with
  | false => exact h2
  | true => exact mem_keysOf_addRotateXG _ _ _ k h2

theorem mem_keysOf_addFrameNodes (g : Graph) (oId fId : String) (lf : Option Nat)
    (m : Option Mat) (k : String) (hk : k ∈ keysOf g) :
    k ∈ keysOf (addFrameNodes g oId fId lf m) := by
  unfold addFrameNodes
  dsimp only
  rw [keysOf_setLocalMatrixOpt, keysOf_setLinkedOpt]
  have h0 : k ∈ keysOf (createOrFetch g (getUuid2 oId fId)) :=
    mem_keysOf_createOrFetch g _ k hk
  cases h1 : findNode (createOrFetch g (getUuid2 oId fId)) (getUuid1 oId) with
  | none => exact h0
  | some objN =>
      dsimp only
      by_cases hr : objN.needsRotateX
      · rw [if_pos hr, keysOf_setParentG]
        exact h0
      · rw [if_neg hr, keysOf_setParentG]
        exact h0

theorem mem_keysOf_addNodeNodes (g : Graph) (oId fId nId : String) (ln : Option Nat)
    (m : Option Mat) (k : String) (hk : k ∈ keysOf g) :
    k ∈ keysOf (addNodeNodes g oId fId nId ln m) := by
  unfold addNodeNodes
  dsimp only
  rw [keysOf_setLocalMatrixOpt, keysOf_setLinkedOpt]
  have h0 : k ∈ keysOf (createOrFetch g (getUuid3 oId fId nId)) :=
    mem_keysOf_createOrFetch g _ k hk
  cases h1 : findNode (createOrFetch g (getUuid3 oId fId nId)) (getUuid2 oId fId) with
  | none => exact h0
  | some _ =>
      dsimp only
      rw [keysOf_setParentG]
      exact h0

theorem mem_keysOf_phase1 (k : String) :
    ∀ (data : List (String × SerializedNode)) (acc : Graph × List String),
      k ∈ keysOf acc.1 → k ∈ keysOf (data.foldl addDataPhase1Step acc).1
  | [], _, hk => hk
  | kv :: rest, acc, hk => by
      rw [List.foldl_cons]
      refine mem_keysOf_phase1 k rest _ ?_
      unfold addDataPhase1Step
      by_cases h : (findNode acc.1 kv.1).isSome
      · rw [if_pos h]
        exact hk
      · rw [if_neg h]
        dsimp only
        rw [keysOf_append]
        exact List.mem_append_left _ hk

theorem keysOf_addDataPhase2Step (data : List (String × SerializedNode)) (g : Graph)
    (k : String) : keysOf (addDataPhase2Step data g k) = keysOf g := by
  unfold addDataPhase2Step
  cases findRecord data k with
  | none => rfl
  | some r => exact keysOf_setNode g k _

theorem mem_keysOf_addDataNodes (g : Graph) (data : List (String × SerializedNode))
    (k : String) (hk : k ∈ keysOf g) : k ∈ keysOf (addDataNodes g data) := by
  unfold addDataNodes
  dsimp only
  rw [keysOf_foldl (fun g' a => keysOf_addDataPhase2Step data g' a)]
  exact mem_keysOf_phase1 k data (g, []) hk

theorem ReachableIn_isSome {g : Graph} {a b : String} (h : ReachableIn g a b) :
    (findNode g b).isSome :=
  match h with
  | .refl _ hs => hs
  | .step _ _ _ _ _ hs => hs

/-- C2: for a bound id, `removeElementAndChildren` erases the id from its
parent's children list and deletes the binding in the one operation (the id
is then unreachable from the root), notifies the observers, and removes no
other key — descendants stay in the registry as orphans. -/
theorem claimC2_remove_detaches {O : Type} (s : SceneGraphState O) (id : String)
    (n : SceneNode) (h : findNode s.nodes id = some n) :
    findNode (removeElementAndChildren s id).nodes id = none ∧
    ¬ ReachableIn (removeElementAndChildren s id).nodes "ROOT" id ∧
    (∀ pk, n.parentKey = some pk → pk ≠ id →
      findNode (removeElementAndChildren s id).nodes pk =
        (findNode s.nodes pk).map (fun p => { p with children := p.children.erase id })) ∧
    (∀ k, k ≠ id → ((findNode (removeElementAndChildren s id).nodes k).isSome ↔
      (findNode s.nodes k).isSome)) ∧
    (removeElementAndChildren s id).obsState = runCallbacks s.updateCallbacks s.obsState := by
  have hnodes : (removeElementAndChildren s id).nodes =
      (eraseChildOf s.nodes n.parentKey id).filter (fun p => p.1 != id) := by
    unfold removeElementAndChildren
    rw [h]
    rfl
  have hid : findNode (removeElementAndChildren s id).nodes id = none := by
    rw [hnodes, findNode_filter_ne, if_pos rfl]
  refine ⟨hid, ?_, ?_, ?_, ?_⟩
  · intro hreach
    have := ReachableIn_isSome hreach
    rw [hid] at this
    cases this
  · intro pk hpk hne
    rw [hnodes, findNode_filter_ne, if_neg hne, findNode_eraseChildOf, hpk, if_pos rfl]
  · intro k hk
    rw [hnodes, findNode_filter_ne, if_neg hk]
    constructor
    · intro hs
      exact findNode_isSome_of_keysOf_eq (keysOf_eraseChildOf s.nodes n.parentKey id).symm hs
    · intro hs
      exact findNode_isSome_of_keysOf_eq (keysOf_eraseChildOf s.nodes n.parentKey id) hs
  · unfold removeElementAndChildren
    rw [h]
    rfl

/-- Witness for C2: removing object `o` from a concrete two-node graph
deletes its binding, erases it from the root's children, and keeps the
root registered. -/
theorem claimC2_witness :
    findNode (removeElementAndChildren (addObject (initialSceneGraph (0 : ℕ)) "o" none false)
        (getUuid1 "o")).nodes (getUuid1 "o") = none ∧
    findNode (removeElementAndChildren (addObject (initialSceneGraph (0 : ℕ)) "o" none false)
        (getUuid1 "o")).nodes "ROOT" =
      (findNode (addObject (initialSceneGraph (0 : ℕ)) "o" none false).nodes "ROOT").map
        (fun p => { p with children := p.children.erase (getUuid1 "o") }) ∧
    (findNode (removeElementAndChildren (addObject (initialSceneGraph (0 : ℕ)) "o" none false)
        (getUuid1 "o")).nodes "ROOT").isSome := by
  have hS : (findNode (addObject (initialSceneGraph (0 : ℕ)) "o" none false).nodes
      (getUuid1 "o")).isSome := by decide
  obtain ⟨n, hn⟩ := Option.isSome_iff_exists.mp hS
  have hpk : n.parentKey = some "ROOT" := by
    have hmap : (findNode (addObject (initialSceneGraph (0 : ℕ)) "o" none false).nodes
        (getUuid1 "o")).map SceneNode.parentKey = some (some "ROOT") := by decide
    rw [hn] at hmap
    exact Option.some.inj hmap
  have hc := claimC2_remove_detaches (addObject (initialSceneGraph (0 : ℕ)) "o" none false)
    (getUuid1 "o") n hn
  refine ⟨hc.1, hc.2.2.1 "ROOT" hpk (fun hh => getUuid1_ne_ROOT "o" hh.symm), ?_⟩
  have hpres := (hc.2.2.2.1 "ROOT" (fun hh => getUuid1_ne_ROOT "o" hh.symm)).mpr (by decide)
  exact hpres

theorem applyOp_preserves_ROOT {O : Type} (op : Op O) (s : SceneGraphState O)
    (hop : removesRoot op = false) (h : "ROOT" ∈ keysOf s.nodes) :
    "ROOT" ∈ keysOf (applyOp op s).nodes := by
  cases op with
  | addObject oId m rot => exact mem_keysOf_addObjectNodes s.nodes oId m rot "ROOT" h
  | addFrame oId fId lf m => exact mem_keysOf_addFrameNodes s.nodes oId fId lf m "ROOT" h
  | addNode oId fId nId ln m => exact mem_keysOf_addNodeNodes s.nodes oId fId nId ln m "ROOT" h
  | removeElementAndChildren id =>
      have hne : id ≠ "ROOT" := by
        intro hid
        rw [hid] at hop
        simp [removesRoot] at hop
      show "ROOT" ∈ keysOf (removeElementAndChildren s id).nodes
      cases hfind : findNode s.nodes id with
      | none =>
          unfold removeElementAndChildren
          rw [hfind]
          exact h
      | some n =>
          have hnodes : (removeElementAndChildren s id).nodes =
              (eraseChildOf s.nodes n.parentKey id).filter (fun p => p.1 != id) := by
            unfold removeElementAndChildren
            rw [hfind]
            rfl
          rw [hnodes, mem_keysOf_iff, findNode_filter_ne, if_neg (fun hh => hne hh.symm)]
          exact findNode_isSome_of_keysOf_eq (keysOf_eraseChildOf s.nodes n.parentKey id)
            ((mem_keysOf_iff _ _).mp h)
  | updateWithPositionData oId fId nId m x y sc =>
      show "ROOT" ∈ keysOf (updateWithPositionData s oId fId nId m x y sc).nodes
      cases hfind : findNode s.nodes (getUuid3 oId fId nId) with
      | none =>
          unfold updateWithPositionData
          dsimp only
          rw [hfind]
          exact h
      | some n =>
          have hnodes : (updateWithPositionData s oId fId nId m x y sc).nodes =
              setLocalMatrixG (setNode s.nodes (getUuid3 oId fId nId)
                (updateVehicleXYScale n x y sc)) (getUuid3 oId fId nId) m := by
            unfold updateWithPositionData
            dsimp only
            rw [hfind]
            rfl
          rw [hnodes, keysOf_setLocalMatrixG, keysOf_setNode]
          exact h
  | updateObjectWorldId oId wId =>
      show "ROOT" ∈ keysOf (updateObjectWorldId s oId wId).nodes
      unfold updateObjectWorldId
      by_cases hid : oId = wId
      · rw [if_pos hid]
        exact h
      · rw [if_neg hid]
        cases findNode s.nodes (getUuid1 wId) with
        | none => exact h
        | some wnode =>
            cases findNode s.nodes (getUuid1 oId) with
            | none => exact h
            | some onode =>
                show "ROOT" ∈ keysOf (setParentG s.nodes (getUuid1 oId) (getUuid1 wId))
                rw [keysOf_setParentG]
                exact h
  | deactivateElement id =>
      show "ROOT" ∈ keysOf (deactivateElement s id).nodes
      unfold deactivateElement
      cases hfind : findNode s.nodes id with
      | none => exact h
      | some n =>
          dsimp only
          by_cases hd : n.deactivated
          · rw [if_pos hd]
            exact h
          · rw [if_neg hd]
            show "ROOT" ∈ keysOf (setNode s.nodes id _)
            rw [keysOf_setNode]
            exact h
  | activateElement id =>
      show "ROOT" ∈ keysOf (activateElement s id).nodes
      unfold activateElement
      cases hfind : findNode s.nodes id with
      | none => exact h
      | some n =>
          dsimp only
          by_cases hd : n.deactivated
          · rw [if_pos hd]
            show "ROOT" ∈ keysOf (setNode s.nodes id _)
            rw [keysOf_setNode]
            exact h
          · rw [if_neg hd]
            exact h
  | recomputeGraph =>
      show "ROOT" ∈ keysOf (recomputeGraphNodes s.nodes)
      rw [keysOf_recomputeGraphNodes]
      exact h
  | getDistanceBetween a b =>
      show "ROOT" ∈ keysOf (recomputeGraphNodes s.nodes)
      rw [keysOf_recomputeGraphNodes]
      exact h
  | getWorldPosition a b c =>
      show "ROOT" ∈ keysOf (recomputeGraphNodes s.nodes)
      rw [keysOf_recomputeGraphNodes]
      exact h
  | getSerializableCopy =>
      show "ROOT" ∈ keysOf (recomputeGraphNodes s.nodes)
      rw [keysOf_recomputeGraphNodes]
      exact h
  | addDataFromSerializableGraph data => exact mem_keysOf_addDataNodes s.nodes data "ROOT" h
  | onUpdate f => exact h

theorem applyOps_preserves_ROOT {O : Type} :
    ∀ (ops : List (Op O)) (s : SceneGraphState O),
      (∀ op ∈ ops, removesRoot op = false) → "ROOT" ∈ keysOf s.nodes →
      "ROOT" ∈ keysOf (applyOps ops s).nodes
  | [], _, _, h => h
  | op :: rest, s, hops, h => by
      show "ROOT" ∈ keysOf (applyOps rest (applyOp op s)).nodes
      exact applyOps_preserves_ROOT rest (applyOp op s)
        (fun o ho => hops o (List.mem_cons_of_mem _ ho))
        (applyOp_preserves_ROOT op s (hops op (List.mem_cons_self _ _)) h)

/-- C3 counterexample: `removeElementAndChildren` addressed to the root's
own reserved ID does delete the root from the registry of a freshly
constructed scene graph, contradicting the claim that no call removes it. -/
theorem claimC3_counterexample :
    findNode (removeElementAndChildren (initialSceneGraph (0 : ℕ)) "ROOT").nodes "ROOT" =
      none := by
  decide

/-- C3 as amended: the root node is registered under the reserved ID after
construction and stays registered across every sequence of interface calls
that never passes the root's own ID to `removeElementAndChildren`; that one
call does remove the root. -/
theorem claimC3_amended_root_persistent {O : Type} (z : O) (ops : List (Op O))
    (hops : ∀ op ∈ ops, removesRoot op = false) :
    (findNode (applyOps ops (initialSceneGraph z)).nodes "ROOT").isSome := by
  rw [← mem_keysOf_iff]
  refine applyOps_preserves_ROOT ops (initialSceneGraph z) hops ?_
  show "ROOT" ∈ ["ROOT"]
  exact List.mem_singleton.mpr rfl

/-- Witness for the amended C3: after adding and removing an object the
root is still registered. -/
theorem claimC3_amended_witness :
    (findNode (applyOps [Op.addObject "o" none false,
        Op.removeElementAndChildren (getUuid1 "o")]
        (initialSceneGraph (0 : ℕ))).nodes "ROOT").isSome := by
  refine claimC3_amended_root_persistent (0 : ℕ)
    [Op.addObject "o" none false, Op.removeElementAndChildren (getUuid1 "o")] ?_
  intro op hop
  rcases List.mem_cons.mp hop with h1 | h1
  · rw [h1]
    rfl
  · rcases List.mem_cons.mp h1 with h2 | h2
    · rw [h2]
      show (getUuid1 "o" == "ROOT") = false
      decide
    · cases h2

theorem createOrFetch_isSome (g : Graph) (u : String) :
    (findNode (createOrFetch g u) u).isSome := by
  cases h : findNode g u with
  | some n =>
      rw [createOrFetch_of_some g u n h, h]
      rfl
  | none =>
      rw [createOrFetch_of_none g u h, findNode_append_of_none g _ u h, findNode_cons,
        if_pos rfl]
      rfl

theorem findNode_createOrFetch_ne (g : Graph) (u k : String) (hk : k ≠ u) :
    findNode (createOrFetch g u) k = findNode g k := by
  unfold createOrFetch
  cases h : findNode g u with
  | some _ => rfl
  | none =>
      cases hgk : findNode g k with
      | some v => exact findNode_append_of_some g _ k v hgk
      | none =>
          rw [findNode_append_of_none g _ k hgk, findNode_cons,
            if_neg (fun hh => hk hh.symm), findNode_nil]

/-- Two registries agreeing pointwise on every binding's parent key and
children list — the view that determines the tree shape. -/
def PCview (g g' : Graph) : Prop :=
  ∀ k, (findNode g' k).map (fun n => (n.parentKey, n.children)) =
    (findNode g k).map (fun n => (n.parentKey, n.children))

theorem PCview_refl (g : Graph) : PCview g g := fun _ => rfl

theorem PCview_trans {g g' g'' : Graph} (h1 : PCview g g') (h2 : PCview g' g'') :
    PCview g g'' := fun k => (h2 k).trans (h1 k)

theorem DR_PCview {g g' : Graph} (h : DR g g') : PCview g g' := by
  intro k
  cases hk : findNode g k with
  | none =>
      rw [DR_findNode_none h k hk]
  | some n =>
      obtain ⟨b, hb⟩ := h.2 k n hk
      rw [hb]
      rfl

theorem PCview_setLinkedOpt (g : Graph) (k : String) (lv : Option Nat) :
    PCview g (setLinkedOpt g k lv) := by
  cases lv with
  | none => exact PCview_refl g
  | some v =>
      intro k'
      rw [setLinkedOpt, findNode_updNode]
      by_cases h : k' = k
      · subst h
        cases hx : findNode g k' <;> simp [hx]
      · rw [if_neg h]

theorem PCview_setLocalMatrixG (g : Graph) (k : String) (m : Mat) :
    PCview g (setLocalMatrixG g k m) := by
  cases h : findNode g k with
  | none =>
      rw [setLocalMatrixG_of_none g k m h]
      exact PCview_refl g
  | some n =>
      refine @PCview_trans g (setNode g k { n with localMatrix := m }) _ ?_
        (DR_PCview (setLocalMatrixG_DR g k m n h))
      intro k'
      rw [findNode_setNode]
      by_cases hk : k' = k
      · subst hk
        rw [if_pos rfl, h]
        rfl
      · rw [if_neg hk]

theorem PCview_setLocalMatrixOpt (g : Graph) (k : String) (m : Option Mat) :
    PCview g (setLocalMatrixOpt g k m) := by
  cases m with
  | none => exact PCview_refl g
  | some mat => exact PCview_setLocalMatrixG g k mat

theorem setParentG_newParent_children (g : Graph) (self npk : String)
    (hself : (findNode g self).isSome) (hnp : (findNode g npk).isSome)
    (hne : npk ≠ self) :
    ∃ p2, findNode (setParentG g self npk) npk = some p2 ∧ self ∈ p2.children := by
  obtain ⟨n, hn⟩ := Option.isSome_iff_exists.mp hself
  have hcore := setParentCore_eq g self npk n hn
  have hnp1 : (findNode (eraseChildOf g n.parentKey self) npk).isSome :=
    findNode_isSome_of_keysOf_eq (keysOf_eraseChildOf g n.parentKey self) hnp
  obtain ⟨pe, hpe⟩ := Option.isSome_iff_exists.mp hnp1
  have happ : findNode (appendChildOf (eraseChildOf g n.parentKey self) npk self) npk =
      some { pe with children := pe.children ++ [self] } := by
    rw [findNode_appendChildOf, if_pos rfl, hpe]
    rfl
  have hcnp : findNode (setParentCore g self npk) npk =
      some { pe with children := pe.children ++ [self] } := by
    rw [hcore, findNode_updNode, if_neg hne]
    exact happ
  obtain ⟨b, hb⟩ := (flagDirty_DR (setParentCore g self npk).length
    (setParentCore g self npk) self).2 npk _ hcnp
  rw [setParentG_def]
  refine ⟨_, hb, ?_⟩
  exact List.mem_append_right _ (List.mem_singleton.mpr rfl)

theorem bindsModDirty_of_some {g : Graph} {k : String} {n : SceneNode}
    (h : findNode g k = some n) : bindsModDirty g k n :=
  ⟨n.dirty, h⟩

theorem bindsModDirty_of_DR {g g' : Graph} (h : DR g g') {k : String} {n : SceneNode}
    (hk : bindsModDirty g k n) : bindsModDirty g' k n := by
  obtain ⟨b, hb⟩ := hk
  obtain ⟨b', hb'⟩ := h.2 k _ hb
  exact ⟨b', hb'⟩

/-- Full characterization of `setParentG` under the structural sanity
conditions (new parent bound and distinct from self, no self-parenting):
the new parent pointer, the new parent's children, the old parent's
children, and all other bindings, each up to staleness marking. -/
theorem setParentG_post (g : Graph) (self npk : String) (selfN parentN : SceneNode)
    (hself : findNode g self = some selfN)
    (hnp : findNode g npk = some parentN)
    (hne : npk ≠ self)
    (hps : selfN.parentKey ≠ some self) :
    bindsModDirty (setParentG g self npk) self { selfN with parentKey := some npk } ∧
    (selfN.parentKey = some npk →
      bindsModDirty (setParentG g self npk) npk
        { parentN with children := parentN.children.erase self ++ [self] }) ∧
    (selfN.parentKey ≠ some npk →
      bindsModDirty (setParentG g self npk) npk
        { parentN with children := parentN.children ++ [self] }) ∧
    (∀ k, k ≠ self → k ≠ npk → selfN.parentKey ≠ some k →
      ∀ v, findNode g k = some v → bindsModDirty (setParentG g self npk) k v) ∧
    (∀ pk0, selfN.parentKey = some pk0 → pk0 ≠ npk → pk0 ≠ self →
      ∀ v, findNode g pk0 = some v →
        bindsModDirty (setParentG g self npk) pk0
          { v with children := v.children.erase self }) ∧
    keysOf (setParentG g self npk) = keysOf g := by
  have hcore := setParentCore_eq g self npk selfN hself
  have hDR : DR (setParentCore g self npk) (setParentG g self npk) := setParentG_DR g self npk
  have hAat : ∀ k, findNode (appendChildOf (eraseChildOf g selfN.parentKey self) npk self) k =
      if k = npk then (findNode (eraseChildOf g selfN.parentKey self) npk).map
        (fun p => { p with children := p.children ++ [self] })
      else findNode (eraseChildOf g selfN.parentKey self) k :=
    fun k => findNode_appendChildOf _ npk self k
  have hEat : ∀ k, findNode (eraseChildOf g selfN.parentKey self) k =
      if selfN.parentKey = some k then
        (findNode g k).map (fun p => { p with children := p.children.erase self })
      else findNode g k :=
    fun k => findNode_eraseChildOf g selfN.parentKey self k
  have hCat : ∀ k, findNode (setParentCore g self npk) k =
      if k = self then (findNode (appendChildOf (eraseChildOf g selfN.parentKey self)
        npk self) self).map (fun x => { x with parentKey := some npk })
      else findNode (appendChildOf (eraseChildOf g selfN.parentKey self) npk self) k := by
    intro k
    rw [hcore, findNode_updNode]
  refine ⟨?_, ?_, ?_, ?_, ?_, ?_⟩
  · refine bindsModDirty_of_DR hDR (bindsModDirty_of_some ?_)
    rw [hCat self, if_pos rfl, hAat self, if_neg (fun hh => hne hh.symm), hEat self,
      if_neg hps, hself]
    rfl
  · intro hop
    refine bindsModDirty_of_DR hDR (bindsModDirty_of_some ?_)
    rw [hCat npk, if_neg hne, hAat npk, if_pos rfl, hEat npk, if_pos hop, hnp]
    rfl
  · intro hop
    refine bindsModDirty_of_DR hDR (bindsModDirty_of_some ?_)
    rw [hCat npk, if_neg hne, hAat npk, if_pos rfl, hEat npk, if_neg hop, hnp]
    rfl
  · intro k hk1 hk2 hk3 v hv
    refine bindsModDirty_of_DR hDR (bindsModDirty_of_some ?_)
    rw [hCat k, if_neg hk1, hAat k, if_neg hk2, hEat k, if_neg hk3]
    exact hv
  · intro pk0 hop h1 h2 v hv
    refine bindsModDirty_of_DR hDR (bindsModDirty_of_some ?_)
    rw [hCat pk0, if_neg h2, hAat pk0, if_neg h1, hEat pk0, if_pos hop, hv]
    rfl
  · exact hDR.1.trans (keysOf_setParentCore g self npk)

theorem setLocalMatrixG_post (g : Graph) (k : String) (m : Mat) :
    (∀ n, findNode g k = some n →
      bindsModDirty (setLocalMatrixG g k m) k { n with localMatrix := m }) ∧
    (∀ k', k' ≠ k → ∀ v, findNode g k' = some v →
      bindsModDirty (setLocalMatrixG g k m) k' v) := by
  constructor
  · intro n hn
    refine bindsModDirty_of_DR (setLocalMatrixG_DR g k m n hn) (bindsModDirty_of_some ?_)
    rw [findNode_setNode, if_pos rfl, hn]
    rfl
  · intro k' hk v hv
    cases hn : findNode g k with
    | none =>
        rw [setLocalMatrixG_of_none g k m hn]
        exact bindsModDirty_of_some hv
    | some n =>
        refine bindsModDirty_of_DR (setLocalMatrixG_DR g k m n hn) (bindsModDirty_of_some ?_)
        rw [findNode_setNode, if_neg hk]
        exact hv

theorem setLocalMatrixOpt_post (g : Graph) (k : String) (m : Option Mat) :
    (∀ n, findNode g k = some n →
      bindsModDirty (setLocalMatrixOpt g k m) k
        (match m with | some mat => { n with localMatrix := mat } | none => n)) ∧
    (∀ k', k' ≠ k → ∀ v, findNode g k' = some v →
      bindsModDirty (setLocalMatrixOpt g k m) k' v) := by
  cases m with
  | none => exact ⟨fun n hn => bindsModDirty_of_some hn, fun k' _ v hv =>
      bindsModDirty_of_some hv⟩
  | some mat => exact (setLocalMatrixG_post g k mat)

/-- Full characterization of `addRotateXG` (no ground-plane variant, as
called from `addObject`): the correction child's binding, the parent's
binding, and the spectator bindings, each up to staleness marking. -/
theorem addRotateXG_post (g : Graph) (pk : String) (pn : SceneNode)
    (hpk : findNode g pk = some pn)
    (hxps : ∀ x, findNode g (rotateXKeyOf pk) = some x →
      x.parentKey ≠ some (rotateXKeyOf pk)) :
    ∃ selfN : SceneNode,
      (findNode g (rotateXKeyOf pk) = some selfN ∨
        (findNode g (rotateXKeyOf pk) = none ∧ selfN = SceneNode.fresh (rotateXKeyOf pk))) ∧
      bindsModDirty (addRotateXG g pk false) (rotateXKeyOf pk)
        { selfN with parentKey := some pk, localMatrix := rotateXMatrix } ∧
      (selfN.parentKey = some pk →
        bindsModDirty (addRotateXG g pk false) pk
          { pn with
            needsRotateX := true
            children := pn.children.erase (rotateXKeyOf pk) ++ [rotateXKeyOf pk] }) ∧
      (selfN.parentKey ≠ some pk →
        bindsModDirty (addRotateXG g pk false) pk
          { pn with
            needsRotateX := true
            children := pn.children ++ [rotateXKeyOf pk] }) ∧
      (∀ k, k ≠ pk → k ≠ rotateXKeyOf pk → selfN.parentKey ≠ some k →
        ∀ v, findNode g k = some v → bindsModDirty (addRotateXG g pk false) k v) ∧
      (∀ pk2, selfN.parentKey = some pk2 → pk2 ≠ pk → pk2 ≠ rotateXKeyOf pk →
        ∀ v, findNode g pk2 = some v →
          bindsModDirty (addRotateXG g pk false) pk2
            { v with children := v.children.erase (rotateXKeyOf pk) }) ∧
      keysOf (addRotateXG g pk false) =
        (if (findNode g (rotateXKeyOf pk)).isSome then keysOf g
          else keysOf g ++ [rotateXKeyOf pk]) := by
  have hrkne : rotateXKeyOf pk ≠ pk := rotateXKeyOf_ne pk
  have hg3 : addRotateXG g pk false =
      setLocalMatrixG (setParentG (createOrFetch (setNode g pk { pn with needsRotateX := true })
        (rotateXKeyOf pk)) (rotateXKeyOf pk) pk)
        (rotateXKeyOf pk) rotateXMatrix := by
    unfold addRotateXG
    rw [hpk]
    rfl
  have hg0at : ∀ k, findNode (setNode g pk { pn with needsRotateX := true }) k =
      if k = pk then some { pn with needsRotateX := true } else findNode g k := by
    intro k
    rw [findNode_setNode]
    by_cases hkk : k = pk
    · rw [if_pos hkk, if_pos hkk, hpk]
      rfl
    · rw [if_neg hkk, if_neg hkk]
  have hg0rot : findNode (setNode g pk { pn with needsRotateX := true }) (rotateXKeyOf pk) =
      findNode g (rotateXKeyOf pk) := by
    rw [hg0at, if_neg hrkne]
  have hpkne : pk ≠ rotateXKeyOf pk := fun hh => hrkne hh.symm
  cases hrk : findNode g (rotateXKeyOf pk) with
  | some x =>
      have hg1 : createOrFetch (setNode g pk { pn with needsRotateX := true })
          (rotateXKeyOf pk) = setNode g pk { pn with needsRotateX := true } :=
        createOrFetch_of_some _ _ x (hg0rot.trans hrk)
      have hself1 : findNode (setNode g pk { pn with needsRotateX := true })
          (rotateXKeyOf pk) = some x := hg0rot.trans hrk
      have hnp1 : findNode (setNode g pk { pn with needsRotateX := true }) pk =
          some { pn with needsRotateX := true } := by
        rw [hg0at, if_pos rfl]
      obtain ⟨hP1, hP2, hP3, hP4, hP5, hP6⟩ := setParentG_post _ (rotateXKeyOf pk) pk x
        { pn with needsRotateX := true } hself1 hnp1 hpkne (hxps x hrk)
      have hL := setLocalMatrixG_post (setParentG (setNode g pk
        { pn with needsRotateX := true }) (rotateXKeyOf pk) pk) (rotateXKeyOf pk)
        rotateXMatrix
      rw [hg3, hg1]
      refine ⟨x, Or.inl rfl, ?_, ?_, ?_, ?_, ?_, ?_⟩
      · obtain ⟨b, hb⟩ := hP1
        have hout := hL.1 _ hb
        exact hout
      · intro hop
        obtain ⟨b, hb⟩ := hP2 hop
        have hout := hL.2 pk hpkne _ hb
        exact hout
      · intro hop
        obtain ⟨b, hb⟩ := hP3 hop
        have hout := hL.2 pk hpkne _ hb
        exact hout
      · intro k hk1 hk2 hk3 v hv
        have hv0 : findNode (setNode g pk { pn with needsRotateX := true }) k = some v := by
          rw [hg0at, if_neg hk1]
          exact hv
        obtain ⟨b, hb⟩ := hP4 k hk2 hk1 hk3 v hv0
        have hout := hL.2 k hk2 _ hb
        exact hout
      · intro pk2 hop h1 h2 v hv
        have hv0 : findNode (setNode g pk { pn with needsRotateX := true }) pk2 = some v := by
          rw [hg0at, if_neg h1]
          exact hv
        obtain ⟨b, hb⟩ := hP5 pk2 hop h1 h2 v hv0
        have hout := hL.2 pk2 h2 _ hb
        exact hout
      · rw [keysOf_setLocalMatrixG, hP6, keysOf_setNode]
        rfl
  | none =>
      have habs0 : findNode (setNode g pk { pn with needsRotateX := true })
          (rotateXKeyOf pk) = none := hg0rot.trans hrk
      have hg1 : createOrFetch (setNode g pk { pn with needsRotateX := true })
          (rotateXKeyOf pk) = setNode g pk { pn with needsRotateX := true } ++
            [(rotateXKeyOf pk, SceneNode.fresh (rotateXKeyOf pk))] :=
        createOrFetch_of_none _ _ habs0
      have hself1 : findNode (setNode g pk { pn with needsRotateX := true } ++
          [(rotateXKeyOf pk, SceneNode.fresh (rotateXKeyOf pk))]) (rotateXKeyOf pk) =
          some (SceneNode.fresh (rotateXKeyOf pk)) := by
        rw [findNode_append_of_none _ _ _ habs0, findNode_cons, if_pos rfl]
      have hnp1 : findNode (setNode g pk { pn with needsRotateX := true } ++
          [(rotateXKeyOf pk, SceneNode.fresh (rotateXKeyOf pk))]) pk =
          some { pn with needsRotateX := true } := by
        refine findNode_append_of_some _ _ _ _ ?_
        rw [hg0at, if_pos rfl]
      obtain ⟨hP1, hP2, hP3, hP4, hP5, hP6⟩ := setParentG_post _ (rotateXKeyOf pk) pk
        (SceneNode.fresh (rotateXKeyOf pk)) { pn with needsRotateX := true } hself1 hnp1
        hpkne (fun hh => Option.noConfusion hh)
      have hL := setLocalMatrixG_post (setParentG (setNode g pk
        { pn with needsRotateX := true } ++
          [(rotateXKeyOf pk, SceneNode.fresh (rotateXKeyOf pk))]) (rotateXKeyOf pk) pk)
        (rotateXKeyOf pk) rotateXMatrix
      rw [hg3, hg1]
      refine ⟨SceneNode.fresh (rotateXKeyOf pk), Or.inr ⟨rfl, rfl⟩, ?_, ?_, ?_, ?_, ?_, ?_⟩
      · obtain ⟨b, hb⟩ := hP1
        have hout := hL.1 _ hb
        exact hout
      · intro hop
        exact Option.noConfusion hop
      · intro _
        obtain ⟨b, hb⟩ := hP3 (fun hh => Option.noConfusion hh)
        have hout := hL.2 pk hpkne _ hb
        exact hout
      · intro k hk1 hk2 hk3 v hv
        have hv0 : findNode (setNode g pk { pn with needsRotateX := true } ++
            [(rotateXKeyOf pk, SceneNode.fresh (rotateXKeyOf pk))]) k = some v := by
          refine findNode_append_of_some _ _ _ _ ?_
          rw [hg0at, if_neg hk1]
          exact hv
        obtain ⟨b, hb⟩ := hP4 k hk2 hk1 (fun hh => Option.noConfusion hh) v hv0
        have hout := hL.2 k hk2 _ hb
        exact hout
      · intro pk2 hop
        exact Option.noConfusion hop
      · rw [keysOf_setLocalMatrixG, hP6, keysOf_append, keysOf_setNode]
        rfl

/-- C6: `addFrame` creates (or fetches) the two-segment node and parents it
under the object's `rotateX` correction child when the object is marked as
needing correction, else directly under the object; when the object's key
is absent the frame node is still created but no parent is assigned (a
fresh node stays parentless, an existing node keeps its previous parent). -/
theorem claimC6_addFrame_parenting {O : Type} (s : SceneGraphState O) (oId fId : String)
    (lf : Option Nat) (m : Option Mat) :
    (∀ objN, findNode s.nodes (getUuid1 oId) = some objN →
      (∃ fn, findNode (addFrame s oId fId lf m).nodes (getUuid2 oId fId) = some fn ∧
        fn.parentKey = some (if objN.needsRotateX then rotateXKeyOf (getUuid1 oId)
          else getUuid1 oId)) ∧
      (∀ pn, findNode s.nodes (if objN.needsRotateX then rotateXKeyOf (getUuid1 oId)
            else getUuid1 oId) = some pn →
        ∃ p3, findNode (addFrame s oId fId lf m).nodes
            (if objN.needsRotateX then rotateXKeyOf (getUuid1 oId) else getUuid1 oId) =
          some p3 ∧ getUuid2 oId fId ∈ p3.children)) ∧
    (findNode s.nodes (getUuid1 oId) = none →
      ∃ fn, findNode (addFrame s oId fId lf m).nodes (getUuid2 oId fId) = some fn ∧
        (findNode s.nodes (getUuid2 oId fId) = none → fn.parentKey = none) ∧
        (∀ old, findNode s.nodes (getUuid2 oId fId) = some old →
          fn.parentKey = old.parentKey)) := by
  have hneO : getUuid1 oId ≠ getUuid2 oId fId := fun h => getUuid2_ne_getUuid1 oId fId h.symm
  have hneR : rotateXKeyOf (getUuid1 oId) ≠ getUuid2 oId fId :=
    fun h => getUuid2_ne_rotateXKey oId fId h.symm
  have hfO : findNode (createOrFetch s.nodes (getUuid2 oId fId)) (getUuid1 oId) =
      findNode s.nodes (getUuid1 oId) := findNode_createOrFetch_ne _ _ _ hneO
  have hfR : findNode (createOrFetch s.nodes (getUuid2 oId fId)) (rotateXKeyOf (getUuid1 oId)) =
      findNode s.nodes (rotateXKeyOf (getUuid1 oId)) := findNode_createOrFetch_ne _ _ _ hneR
  have hf1 : (findNode (createOrFetch s.nodes (getUuid2 oId fId)) (getUuid2 oId fId)).isSome :=
    createOrFetch_isSome _ _
  constructor
  · intro objN hobj
    have hmatch : findNode (createOrFetch s.nodes (getUuid2 oId fId)) (getUuid1 oId) =
        some objN := hfO.trans hobj
    by_cases hr : objN.needsRotateX
    · have hnodes : (addFrame s oId fId lf m).nodes =
          setLocalMatrixOpt (setLinkedOpt (setParentG (createOrFetch s.nodes
            (getUuid2 oId fId)) (getUuid2 oId fId) (rotateXKeyOf (getUuid1 oId)))
            (getUuid2 oId fId) lf) (getUuid2 oId fId) m := by
        show addFrameNodes s.nodes oId fId lf m = _
        unfold addFrameNodes
        dsimp only
        rw [hmatch]
        dsimp only
        rw [if_pos hr]
      have hpc : PCview (setParentG (createOrFetch s.nodes (getUuid2 oId fId))
          (getUuid2 oId fId) (rotateXKeyOf (getUuid1 oId))) (addFrame s oId fId lf m).nodes := by
        rw [hnodes]
        exact PCview_trans (PCview_setLinkedOpt _ _ _) (PCview_setLocalMatrixOpt _ _ _)
      obtain ⟨fn, hfn, hpk⟩ := setParentG_parentKey _ (getUuid2 oId fId)
        (rotateXKeyOf (getUuid1 oId)) hf1
      constructor
      · have hthis := hpc (getUuid2 oId fId)
        rw [hfn] at hthis
        obtain ⟨fn2, hfn2, hpcf⟩ := Option.map_eq_some'.mp hthis
        refine ⟨fn2, hfn2, ?_⟩
        rw [if_pos hr]
        have h1 := congrArg Prod.fst hpcf
        dsimp only at h1
        rw [h1, hpk]
      · intro pn hpn
        rw [if_pos hr] at hpn
        have hnpS : (findNode (createOrFetch s.nodes (getUuid2 oId fId))
            (rotateXKeyOf (getUuid1 oId))).isSome := by
          rw [hfR, hpn]
          rfl
        obtain ⟨p2, hp2, hmem⟩ := setParentG_newParent_children _ _ _ hf1 hnpS hneR
        have hthis2 := hpc (rotateXKeyOf (getUuid1 oId))
        rw [hp2] at hthis2
        obtain ⟨p3, hp3, hpcp⟩ := Option.map_eq_some'.mp hthis2
        rw [if_pos hr]
        refine ⟨p3, hp3, ?_⟩
        have h2 := congrArg Prod.snd hpcp
        dsimp only at h2
        rw [h2]
        exact hmem
    · have hnodes : (addFrame s oId fId lf m).nodes =
          setLocalMatrixOpt (setLinkedOpt (setParentG (createOrFetch s.nodes
            (getUuid2 oId fId)) (getUuid2 oId fId) (getUuid1 oId))
            (getUuid2 oId fId) lf) (getUuid2 oId fId) m := by
        show addFrameNodes s.nodes oId fId lf m = _
        unfold addFrameNodes
        dsimp only
        rw [hmatch]
        dsimp only
        rw [if_neg hr]
      have hpc : PCview (setParentG (createOrFetch s.nodes (getUuid2 oId fId))
          (getUuid2 oId fId) (getUuid1 oId)) (addFrame s oId fId lf m).nodes := by
        rw [hnodes]
        exact PCview_trans (PCview_setLinkedOpt _ _ _) (PCview_setLocalMatrixOpt _ _ _)
      obtain ⟨fn, hfn, hpk⟩ := setParentG_parentKey _ (getUuid2 oId fId) (getUuid1 oId) hf1
      constructor
      · have hthis := hpc (getUuid2 oId fId)
        rw [hfn] at hthis
        obtain ⟨fn2, hfn2, hpcf⟩ := Option.map_eq_some'.mp hthis
        refine ⟨fn2, hfn2, ?_⟩
        rw [if_neg hr]
        have h1 := congrArg Prod.fst hpcf
        dsimp only at h1
        rw [h1, hpk]
      · intro pn hpn
        rw [if_neg hr] at hpn
        have hnpS : (findNode (createOrFetch s.nodes (getUuid2 oId fId))
            (getUuid1 oId)).isSome := by
          rw [hfO, hpn]
          rfl
        obtain ⟨p2, hp2, hmem⟩ := setParentG_newParent_children _ _ _ hf1 hnpS hneO
        have hthis2 := hpc (getUuid1 oId)
        rw [hp2] at hthis2
        obtain ⟨p3, hp3, hpcp⟩ := Option.map_eq_some'.mp hthis2
        rw [if_neg hr]
        refine ⟨p3, hp3, ?_⟩
        have h2 := congrArg Prod.snd hpcp
        dsimp only at h2
        rw [h2]
        exact hmem
  · intro hobj
    have hmatch : findNode (createOrFetch s.nodes (getUuid2 oId fId)) (getUuid1 oId) =
        none := hfO.trans hobj
    have hnodes : (addFrame s oId fId lf m).nodes =
        setLocalMatrixOpt (setLinkedOpt (createOrFetch s.nodes (getUuid2 oId fId))
          (getUuid2 oId fId) lf) (getUuid2 oId fId) m := by
      show addFrameNodes s.nodes oId fId lf m = _
      unfold addFrameNodes
      dsimp only
      rw [hmatch]
    have hpc : PCview (createOrFetch s.nodes (getUuid2 oId fId))
        (addFrame s oId fId lf m).nodes := by
      rw [hnodes]
      exact PCview_trans (PCview_setLinkedOpt _ _ _) (PCview_setLocalMatrixOpt _ _ _)
    cases hfu : findNode s.nodes (getUuid2 oId fId) with
    | none =>
        have hfind : findNode (createOrFetch s.nodes (getUuid2 oId fId))
            (getUuid2 oId fId) = some (SceneNode.fresh (getUuid2 oId fId)) := by
          rw [createOrFetch_of_none _ _ hfu, findNode_append_of_none _ _ _ hfu,
            findNode_cons, if_pos rfl]
        have hthis := hpc (getUuid2 oId fId)
        rw [hfind] at hthis
        obtain ⟨fn, hfn, hpcf⟩ := Option.map_eq_some'.mp hthis
        refine ⟨fn, hfn, fun _ => ?_, fun old hold => ?_⟩
        · have h1 := congrArg Prod.fst hpcf
          dsimp only at h1
          rw [h1]
          rfl
        · exact Option.noConfusion hold
    | some old =>
        have hfind : findNode (createOrFetch s.nodes (getUuid2 oId fId))
            (getUuid2 oId fId) = some old := by
          rw [createOrFetch_of_some _ _ old hfu]
          exact hfu
        have hthis := hpc (getUuid2 oId fId)
        rw [hfind] at hthis
        obtain ⟨fn, hfn, hpcf⟩ := Option.map_eq_some'.mp hthis
        refine ⟨fn, hfn, fun habs => ?_, fun old2 hold2 => ?_⟩
        · exact Option.noConfusion habs
        · have heq : old = old2 := Option.some.inj hold2
          have h1 := congrArg Prod.fst hpcf
          dsimp only at h1
          rw [h1, heq]

/-- Witness for C6 at concrete graphs: a frame under a correction-marked
object is parented under the rotateX child, and with the object missing
the frame is created parentless. -/
theorem claimC6_witness :
    (∃ fn, findNode (addFrame (addObject (initialSceneGraph (0 : ℕ)) "o" none true)
        "o" "f" none none).nodes (getUuid2 "o" "f") = some fn ∧
      fn.parentKey = some (rotateXKeyOf (getUuid1 "o"))) ∧
    (∃ fn, findNode (addFrame (initialSceneGraph (0 : ℕ)) "q" "f" none none).nodes
        (getUuid2 "q" "f") = some fn ∧ fn.parentKey = none) := by
  constructor
  · have hS : (findNode (addObject (initialSceneGraph (0 : ℕ)) "o" none true).nodes
        (getUuid1 "o")).isSome := by decide
    obtain ⟨objN, hobj⟩ := Option.isSome_iff_exists.mp hS
    have hrot : objN.needsRotateX = true := by
      have hmap : (findNode (addObject (initialSceneGraph (0 : ℕ)) "o" none true).nodes
          (getUuid1 "o")).map SceneNode.needsRotateX = some true := by decide
      rw [hobj] at hmap
      exact Option.some.inj hmap
    obtain ⟨⟨fn, hfn, hpk⟩, _⟩ :=
      (claimC6_addFrame_parenting (addObject (initialSceneGraph (0 : ℕ)) "o" none true)
        "o" "f" none none).1 objN hobj
    refine ⟨fn, hfn, ?_⟩
    rw [hpk, if_pos hrot]
  · obtain ⟨fn, hfn, hfresh, _⟩ :=
      (claimC6_addFrame_parenting (initialSceneGraph (0 : ℕ)) "q" "f" none none).2 (by decide)
    exact ⟨fn, hfn, hfresh (by decide)⟩

theorem findRecord_nil (k : String) : findRecord [] k = none := rfl

theorem findRecord_cons (k0 : String) (r0 : SerializedNode)
    (rest : List (String × SerializedNode)) (k : String) :
    findRecord ((k0, r0) :: rest) k = if k0 = k then some r0 else findRecord rest k := rfl

/-- Invariant carried through phase 1 of the snapshot import: the original
bindings are still the first bindings, and every remembered key is bound to
a fresh placeholder. -/
def Phase1Inv (g : Graph) (acc : Graph × List String) : Prop :=
  (∀ k n, findNode g k = some n → findNode acc.1 k = some n) ∧
  (∀ k, k ∈ acc.2 → findNode acc.1 k = some (SceneNode.fresh k))

theorem phase1_inv_step (g : Graph) (acc : Graph × List String)
    (kv : String × SerializedNode) (h : Phase1Inv g acc) :
    Phase1Inv g (addDataPhase1Step acc kv) := by
  unfold addDataPhase1Step
  by_cases hp : (findNode acc.1 kv.1).isSome
  · rw [if_pos hp]
    exact h
  · rw [if_neg hp]
    have habs : findNode acc.1 kv.1 = none := by
      cases hx : findNode acc.1 kv.1 with
      | none => rfl
      | some _ => rw [hx] at hp; exact absurd rfl hp
    constructor
    · intro k n hkn
      exact findNode_append_of_some _ _ k n (h.1 k n hkn)
    · intro k hk
      rcases List.mem_append.mp hk with hk1 | hk1
      · exact findNode_append_of_some _ _ k _ (h.2 k hk1)
      · have hkv : k = kv.1 := List.mem_singleton.mp hk1
        subst hkv
        rw [findNode_append_of_none _ _ _ habs, findNode_cons, if_pos rfl]

theorem phase1_inv (g : Graph) :
    ∀ (data : List (String × SerializedNode)) (acc : Graph × List String),
      Phase1Inv g acc → Phase1Inv g (data.foldl addDataPhase1Step acc)
  | [], _, h => h
  | kv :: rest, acc, h => by
      rw [List.foldl_cons]
      exact phase1_inv g rest _ (phase1_inv_step g acc kv h)

theorem phase1_upd_mono :
    ∀ (data : List (String × SerializedNode)) (acc : Graph × List String) (k : String),
      k ∈ acc.2 → k ∈ (data.foldl addDataPhase1Step acc).2
  | [], _, _, hk => hk
  | kv :: rest, acc, k, hk => by
      rw [List.foldl_cons]
      refine phase1_upd_mono rest _ k ?_
      unfold addDataPhase1Step
      by_cases hp : (findNode acc.1 kv.1).isSome
      · rw [if_pos hp]
        exact hk
      · rw [if_neg hp]
        exact List.mem_append_left _ hk

theorem phase1_covers :
    ∀ (data : List (String × SerializedNode)) (acc : Graph × List String) (k : String)
      (r : SerializedNode), findRecord data k = some r → findNode acc.1 k = none →
      k ∈ (data.foldl addDataPhase1Step acc).2
  | [], _, k, r, hr, _ => by rw [findRecord_nil] at hr; cases hr
  | kv :: rest, acc, k, r, hr, habs => by
      obtain ⟨k0, r0⟩ := kv
      rw [List.foldl_cons]
      rw [findRecord_cons] at hr
      by_cases h0 : k0 = k
      · subst h0
        have hstep : addDataPhase1Step acc (k0, r0) =
            (acc.1 ++ [(k0, SceneNode.fresh k0)], acc.2 ++ [k0]) := by
          unfold addDataPhase1Step
          rw [if_neg (by rw [habs]; exact Bool.false_ne_true)]
        rw [hstep]
        exact phase1_upd_mono rest _ k0 (List.mem_append_right _ (List.mem_singleton.mpr rfl))
      · rw [if_neg h0] at hr
        refine phase1_covers rest _ k r hr ?_
        unfold addDataPhase1Step
        by_cases hp : (findNode acc.1 k0).isSome
        · rw [if_pos hp]
          exact habs
        · rw [if_neg hp]
          dsimp only
          rw [findNode_append_of_none _ _ k habs, findNode_cons, if_neg h0, findNode_nil]

theorem phase1_no_shadow :
    ∀ (data : List (String × SerializedNode)) (acc : Graph × List String) (k : String),
      (findNode acc.1 k).isSome → k ∉ acc.2 → k ∉ (data.foldl addDataPhase1Step acc).2
  | [], _, _, _, hk => hk
  | kv :: rest, acc, k, hsome, hk => by
      rw [List.foldl_cons]
      unfold addDataPhase1Step
      by_cases hp : (findNode acc.1 kv.1).isSome
      · rw [if_pos hp]
        exact phase1_no_shadow rest acc k hsome hk
      · rw [if_neg hp]
        have hne : k ≠ kv.1 := by
          intro hkk
          rw [hkk] at hsome
          exact hp hsome
        refine phase1_no_shadow rest _ k ?_ ?_
        · obtain ⟨n, hn⟩ := Option.isSome_iff_exists.mp hsome
          rw [findNode_append_of_some _ _ k n hn]
          rfl
        · intro hmem
          rcases List.mem_append.mp hmem with h1 | h1
          · exact hk h1
          · exact hne (List.mem_singleton.mp h1)

theorem phase2_keysOf (data : List (String × SerializedNode)) (l : List String) (g : Graph) :
    keysOf (l.foldl (addDataPhase2Step data) g) = keysOf g :=
  keysOf_foldl (fun g' a => keysOf_addDataPhase2Step data g' a) l g

theorem phase2_preserves_nonupd (data : List (String × SerializedNode)) :
    ∀ (l : List String) (g : Graph) (k : String), k ∉ l →
      findNode (l.foldl (addDataPhase2Step data) g) k = findNode g k
  | [], _, _, _ => rfl
  | k0 :: rest, g, k, hk => by
      rw [List.foldl_cons]
      have hne : k ≠ k0 := fun h => hk (h ▸ List.mem_cons_self _ _)
      rw [phase2_preserves_nonupd data rest _ k (fun h => hk (List.mem_cons_of_mem _ h))]
      unfold addDataPhase2Step
      cases findRecord data k0 with
      | none => rfl
      | some r =>
          rw [findNode_setNode, if_neg hne]

theorem phase2_sets (data : List (String × SerializedNode)) :
    ∀ (l : List String) (g : Graph) (k : String) (r : SerializedNode), k ∈ l →
      findRecord data k = some r → (∀ k0 ∈ l, (findNode g k0).isSome) →
      findNode (l.foldl (addDataPhase2Step data) g) k = some (initFromSerializedCopy k r)
  | [], _, k, _, hk, _, _ => absurd hk (List.not_mem_nil k)
  | k0 :: rest, g, k, r, hk, hr, hall => by
      rw [List.foldl_cons]
      have hpres : ∀ k1 ∈ rest, (findNode (addDataPhase2Step data g k0) k1).isSome := by
        intro k1 hk1
        exact findNode_isSome_of_keysOf_eq (keysOf_addDataPhase2Step data g k0)
          (hall k1 (List.mem_cons_of_mem _ hk1))
      by_cases hmem : k ∈ rest
      · exact phase2_sets data rest _ k r hmem hr hpres
      · have hkk0 : k = k0 := by
          rcases List.mem_cons.mp hk with h | h
          · exact h
          · exact absurd h hmem
        subst hkk0
        rw [phase2_preserves_nonupd data rest _ k hmem]
        unfold addDataPhase2Step
        rw [hr, findNode_setNode, if_pos rfl]
        obtain ⟨n, hn⟩ := Option.isSome_iff_exists.mp (hall k (List.mem_cons_self _ _))
        rw [hn]
        rfl

/-- C9: `addDataFromSerializableGraph` leaves every already-registered node
completely unmodified (local state wins), and for every id present in the
snapshot but absent locally it creates a node hydrated from the snapshot
record. -/
theorem claimC9_import_merge {O : Type} (s : SceneGraphState O)
    (data : List (String × SerializedNode)) :
    (∀ k n, findNode s.nodes k = some n →
      findNode (addDataFromSerializableGraph s data).nodes k = some n) ∧
    (∀ k r, findRecord data k = some r → findNode s.nodes k = none →
      findNode (addDataFromSerializableGraph s data).nodes k =
        some (initFromSerializedCopy k r)) := by
  have hinv : Phase1Inv s.nodes (data.foldl addDataPhase1Step (s.nodes, [])) :=
    phase1_inv s.nodes data (s.nodes, []) ⟨fun _ _ h => h, fun k hk => absurd hk
      (List.not_mem_nil k)⟩
  have hnodes : (addDataFromSerializableGraph s data).nodes =
      (data.foldl addDataPhase1Step (s.nodes, [])).2.foldl
        (addDataPhase2Step data) (data.foldl addDataPhase1Step (s.nodes, [])).1 := rfl
  constructor
  · intro k n hkn
    rw [hnodes]
    have hnoupd : k ∉ (data.foldl addDataPhase1Step (s.nodes, [])).2 :=
      phase1_no_shadow data (s.nodes, []) k (by rw [hkn]; rfl) (List.not_mem_nil k)
    rw [phase2_preserves_nonupd data _ _ k hnoupd]
    exact hinv.1 k n hkn
  · intro k r hr habs
    rw [hnodes]
    have hupd : k ∈ (data.foldl addDataPhase1Step (s.nodes, [])).2 :=
      phase1_covers data (s.nodes, []) k r hr habs
    refine phase2_sets data _ _ k r hupd hr ?_
    intro k0 hk0
    rw [hinv.2 k0 hk0]
    rfl

/-- Witness for C9: importing a snapshot over the fresh graph leaves the
already-present root untouched and hydrates the new key `X` from its
record. -/
theorem claimC9_witness :
    findNode (addDataFromSerializableGraph (initialSceneGraph (0 : ℕ))
        [("ROOT", { parent := none }), ("X", { parent := some "ROOT" })]).nodes "ROOT" =
      some (SceneNode.fresh "ROOT") ∧
    findNode (addDataFromSerializableGraph (initialSceneGraph (0 : ℕ))
        [("ROOT", { parent := none }), ("X", { parent := some "ROOT" })]).nodes "X" =
      some (initFromSerializedCopy "X" { parent := some "ROOT" }) := by
  have hc := claimC9_import_merge (initialSceneGraph (0 : ℕ))
    [("ROOT", { parent := none }), ("X", { parent := some "ROOT" })]
  exact ⟨hc.1 "ROOT" (SceneNode.fresh "ROOT") (by decide),
    hc.2 "X" { parent := some "ROOT" } (by decide) (by decide)⟩

/-- Witness for the amended C5: on a concrete graph with one counting
observer, `addObject` runs the observer exactly once. -/
theorem claimC5_amended_witness :
    (applyOp (Op.addObject "o" none false)
        (onUpdate (initialSceneGraph 0) (fun n => n + 1))).obsState =
      runCallbacks (onUpdate (initialSceneGraph 0) (fun n => n + 1)).updateCallbacks
        (onUpdate (initialSceneGraph 0) (fun n => n + 1)).obsState ∧
    (applyOp (Op.deactivateElement "missing")
        (onUpdate (initialSceneGraph 0) (fun n => n + 1))).obsState =
      (onUpdate (initialSceneGraph 0) (fun n => n + 1)).obsState := by
  constructor
  · exact ((claimC5_amended_notifications (Op.addObject "o" none false)
      (onUpdate (initialSceneGraph 0) (fun n => n + 1))).1 rfl).1
  · exact (claimC5_amended_notifications (Op.deactivateElement "missing")
      (onUpdate (initialSceneGraph 0) (fun n => n + 1))).2 rfl

/- ## Record-update algebra for `SceneNode` -/

theorem sn_pk_self (n : SceneNode) (p : Option String) (h : n.parentKey = p) :
    { n with parentKey := p } = n := by
  cases n
  subst h
  rfl

theorem sn_lm_self (n : SceneNode) (mv : Mat) (h : n.localMatrix = mv) :
    { n with localMatrix := mv } = n := by
  cases n
  subst h
  rfl

theorem sn_children_self (n : SceneNode) (c : List String) (h : n.children = c) :
    { n with children := c } = n := by
  cases n
  subst h
  rfl

theorem sn_pklm_self (n : SceneNode) (p : Option String) (mv : Mat)
    (h1 : n.parentKey = p) (h2 : n.localMatrix = mv) :
    { n with parentKey := p, localMatrix := mv } = n := by
  cases n
  subst h1
  subst h2
  rfl

theorem sn_rotch_self (n : SceneNode) (c : List String) (h1 : n.needsRotateX = true)
    (h2 : n.children = c) : { n with needsRotateX := true, children := c } = n := by
  cases n
  subst h2
  rw [← h1]

theorem dirty_idem (n : SceneNode) (b b' : Bool) :
    { { n with dirty := b } with dirty := b' } = { n with dirty := b' } := by
  cases n
  rfl

theorem dirty_comm_pk (n : SceneNode) (b : Bool) (p : Option String) :
    { { n with dirty := b } with parentKey := p } =
      { { n with parentKey := p } with dirty := b } := by
  cases n
  rfl

theorem dirty_comm_lm (n : SceneNode) (b : Bool) (mv : Mat) :
    { { n with dirty := b } with localMatrix := mv } =
      { { n with localMatrix := mv } with dirty := b } := by
  cases n
  rfl

theorem dirty_comm_ch (n : SceneNode) (b : Bool) (c : List String) :
    { { n with dirty := b } with children := c } =
      { { n with children := c } with dirty := b } := by
  cases n
  rfl

theorem dirty_comm_pklm (n : SceneNode) (b : Bool) (p : Option String) (mv : Mat) :
    { { n with dirty := b } with parentKey := p, localMatrix := mv } =
      { { n with parentKey := p, localMatrix := mv } with dirty := b } := by
  cases n
  rfl

theorem dirty_comm_rotch (n : SceneNode) (b : Bool) (c : List String) :
    { { n with dirty := b } with needsRotateX := true, children := c } =
      { { n with needsRotateX := true, children := c } with dirty := b } := by
  cases n
  rfl

theorem children_idem (n : SceneNode) (c c' : List String) :
    { { n with children := c } with children := c' } = { n with children := c' } := by
  cases n
  rfl

theorem bindsModDirty_dirty {g : Graph} {k : String} {n : SceneNode} {b : Bool}
    (h : bindsModDirty g k { n with dirty := b }) : bindsModDirty g k n := by
  obtain ⟨c, hc⟩ := h
  rw [dirty_idem] at hc
  exact ⟨c, hc⟩

theorem bindsModDirty_mono {g g' : Graph} {k : String}
    (hstep : ∀ v, findNode g k = some v → bindsModDirty g' k v) :
    ∀ n, bindsModDirty g k n → bindsModDirty g' k n := by
  rintro n ⟨b, hb⟩
  exact bindsModDirty_dirty (hstep _ hb)

theorem countKey_congr {g g' : Graph} (h : keysOf g' = keysOf g) (k : String) :
    countKey g' k = countKey g k := by
  unfold countKey
  rw [h]

theorem isEdge_iff_of_DR {g g' : Graph} (h : DR g g') (a c : String) :
    isEdge g' a c ↔ isEdge g a c := by
  constructor
  · intro hd
    have hd' : ∃ x, findNode g' a = some x ∧ c ∈ x.children := hd
    obtain ⟨n', hn', hc⟩ := hd'
    have hsome : (findNode g a).isSome := by
      rw [← mem_keysOf_iff, ← h.1, mem_keysOf_iff, hn']
      rfl
    obtain ⟨n, hn⟩ := Option.isSome_iff_exists.mp hsome
    obtain ⟨b0, hb0⟩ := h.2 a n hn
    rw [hn'] at hb0
    have hEq := Option.some.inj hb0
    have hch : n'.children = n.children := by rw [hEq]
    rw [hch] at hc
    exact (⟨n, hn, hc⟩ : ∃ x, findNode g a = some x ∧ c ∈ x.children)
  · intro hd
    have hd' : ∃ x, findNode g a = some x ∧ c ∈ x.children := hd
    obtain ⟨n, hn, hc⟩ := hd'
    obtain ⟨b0, hb0⟩ := h.2 a n hn
    exact (⟨_, hb0, hc⟩ : ∃ x, findNode g' a = some x ∧ c ∈ x.children)

/-- Characterization of the setParent-under-root-then-set-matrix core of
addObject, over an arbitrary registry that binds both the object key and
the root: the object binding, the root binding (with the object key moved
to the end of the children), spectator bindings, the old parent binding,
and the key list, each up to staleness marking. -/
theorem setParentRootLm_post (g0 : Graph) (u : String) (m : Option Mat)
    (n0 rootN : SceneNode)
    (hu0 : findNode g0 u = some n0)
    (hr0 : findNode g0 "ROOT" = some rootN)
    (hUR : "ROOT" ≠ u)
    (hps0 : n0.parentKey ≠ some u)
    (hndR : rootN.children.Nodup)
    (hsym : n0.parentKey ≠ some "ROOT" → u ∉ rootN.children) :
    ∃ Z : List String, u ∉ Z ∧
      bindsModDirty (setLocalMatrixOpt (setParentG g0 u "ROOT") u m) u
        { n0 with
            parentKey := some "ROOT"
            localMatrix := match m with | some mat => mat | none => n0.localMatrix } ∧
      bindsModDirty (setLocalMatrixOpt (setParentG g0 u "ROOT") u m) "ROOT"
        { rootN with children := Z ++ [u] } ∧
      (∀ k, k ≠ u → k ≠ "ROOT" → n0.parentKey ≠ some k →
        ∀ v, findNode g0 k = some v →
          bindsModDirty (setLocalMatrixOpt (setParentG g0 u "ROOT") u m) k v) ∧
      (∀ pk0, n0.parentKey = some pk0 → pk0 ≠ "ROOT" → pk0 ≠ u →
        ∀ v, findNode g0 pk0 = some v →
          bindsModDirty (setLocalMatrixOpt (setParentG g0 u "ROOT") u m) pk0
            { v with children := v.children.erase u }) ∧
      keysOf (setLocalMatrixOpt (setParentG g0 u "ROOT") u m) = keysOf g0 := by
  obtain ⟨hP1, hP2, hP3, hP4, hP5, hP6⟩ := setParentG_post g0 u "ROOT" n0 rootN hu0 hr0 hUR hps0
  have hL := setLocalMatrixOpt_post (setParentG g0 u "ROOT") u m
  have hLsp : ∀ k, k ≠ u → ∀ nn, bindsModDirty (setParentG g0 u "ROOT") k nn →
      bindsModDirty (setLocalMatrixOpt (setParentG g0 u "ROOT") u m) k nn :=
    fun k hk => bindsModDirty_mono (fun v hv => hL.2 k hk v hv)
  have hRest : ∃ Z : List String, u ∉ Z ∧
      bindsModDirty (setLocalMatrixOpt (setParentG g0 u "ROOT") u m) "ROOT"
        { rootN with children := Z ++ [u] } ∧
      (∀ k, k ≠ u → k ≠ "ROOT" → n0.parentKey ≠ some k →
        ∀ v, findNode g0 k = some v →
          bindsModDirty (setLocalMatrixOpt (setParentG g0 u "ROOT") u m) k v) ∧
      (∀ pk0, n0.parentKey = some pk0 → pk0 ≠ "ROOT" → pk0 ≠ u →
        ∀ v, findNode g0 pk0 = some v →
          bindsModDirty (setLocalMatrixOpt (setParentG g0 u "ROOT") u m) pk0
            { v with children := v.children.erase u }) ∧
      keysOf (setLocalMatrixOpt (setParentG g0 u "ROOT") u m) = keysOf g0 := by
    by_cases hic : n0.parentKey = some "ROOT"
    · refine ⟨rootN.children.erase u, ?_, ?_, ?_, ?_, ?_⟩
      · intro hmem
        exact (hndR.mem_erase_iff.mp hmem).1 rfl
      · exact hLsp "ROOT" hUR _ (hP2 hic)
      · intro k hk1 hk2 hk3 v hv
        exact hLsp k hk1 _ (hP4 k hk1 hk2 hk3 v hv)
      · intro pk0 hop h1 h2 v hv
        exact hLsp pk0 h2 _ (hP5 pk0 hop h1 h2 v hv)
      · rw [keysOf_setLocalMatrixOpt]
        exact hP6
    · refine ⟨rootN.children, hsym hic, ?_, ?_, ?_, ?_⟩
      · exact hLsp "ROOT" hUR _ (hP3 hic)
      · intro k hk1 hk2 hk3 v hv
        exact hLsp k hk1 _ (hP4 k hk1 hk2 hk3 v hv)
      · intro pk0 hop h1 h2 v hv
        exact hLsp pk0 h2 _ (hP5 pk0 hop h1 h2 v hv)
      · rw [keysOf_setLocalMatrixOpt]
        exact hP6
  obtain ⟨Z, hZ1, hZ2, hZ3, hZ4, hZ5⟩ := hRest
  refine ⟨Z, hZ1, ?_, hZ2, hZ3, hZ4, hZ5⟩
  obtain ⟨b1, hb1⟩ := hP1
  have h2 := hL.1 _ hb1
  cases m with
  | none =>
      have h3 : bindsModDirty (setLocalMatrixOpt (setParentG g0 u "ROOT") u none) u
          { { n0 with parentKey := some "ROOT" } with dirty := b1 } := h2
      have h4 := bindsModDirty_dirty h3
      have he : ({ n0 with parentKey := some "ROOT", localMatrix := n0.localMatrix } :
          SceneNode) = { n0 with parentKey := some "ROOT" } :=
        sn_lm_self { n0 with parentKey := some "ROOT" } n0.localMatrix rfl
      show bindsModDirty (setLocalMatrixOpt (setParentG g0 u "ROOT") u none) u
        { n0 with parentKey := some "ROOT", localMatrix := n0.localMatrix }
      rw [he]
      exact h4
  | some mat =>
      have h3 : bindsModDirty (setLocalMatrixOpt (setParentG g0 u "ROOT") u (some mat)) u
          { { { n0 with parentKey := some "ROOT" } with dirty := b1 } with
              localMatrix := mat } := h2
      rw [dirty_comm_lm] at h3
      have h4 := bindsModDirty_dirty h3
      show bindsModDirty (setLocalMatrixOpt (setParentG g0 u "ROOT") u (some mat)) u
        { n0 with parentKey := some "ROOT", localMatrix := mat }
      exact h4

/-- Characterization of the create-or-fetch / parent-under-root / optional
local-matrix prefix of addObject (src lines 40–50), over any well-formed
registry that binds the root. -/
theorem addObjectPre_post (g : Graph) (oId : String) (m : Option Mat)
    (hwf : WellFormed g) (rootN : SceneNode)
    (hroot : findNode g "ROOT" = some rootN)
    (n0 : SceneNode)
    (hn0 : findNode g (getUuid1 oId) = some n0 ∨
      (findNode g (getUuid1 oId) = none ∧ n0 = SceneNode.fresh (getUuid1 oId))) :
    ∃ Z : List String, getUuid1 oId ∉ Z ∧
      bindsModDirty (setLocalMatrixOpt (setParentG (createOrFetch g (getUuid1 oId))
          (getUuid1 oId) "ROOT") (getUuid1 oId) m) (getUuid1 oId)
        { n0 with
            parentKey := some "ROOT"
            localMatrix := match m with | some mat => mat | none => n0.localMatrix } ∧
      bindsModDirty (setLocalMatrixOpt (setParentG (createOrFetch g (getUuid1 oId))
          (getUuid1 oId) "ROOT") (getUuid1 oId) m) "ROOT"
        { rootN with children := Z ++ [getUuid1 oId] } ∧
      (∀ k, k ≠ getUuid1 oId → k ≠ "ROOT" → n0.parentKey ≠ some k →
        ∀ v, findNode g k = some v →
          bindsModDirty (setLocalMatrixOpt (setParentG (createOrFetch g (getUuid1 oId))
            (getUuid1 oId) "ROOT") (getUuid1 oId) m) k v) ∧
      (∀ pk0, n0.parentKey = some pk0 → pk0 ≠ "ROOT" → pk0 ≠ getUuid1 oId →
        ∀ v, findNode g pk0 = some v →
          bindsModDirty (setLocalMatrixOpt (setParentG (createOrFetch g (getUuid1 oId))
            (getUuid1 oId) "ROOT") (getUuid1 oId) m) pk0
            { v with children := v.children.erase (getUuid1 oId) }) ∧
      countKey (setLocalMatrixOpt (setParentG (createOrFetch g (getUuid1 oId))
        (getUuid1 oId) "ROOT") (getUuid1 oId) m) (getUuid1 oId) = 1 ∧
      keysOf (setLocalMatrixOpt (setParentG (createOrFetch g (getUuid1 oId))
          (getUuid1 oId) "ROOT") (getUuid1 oId) m) =
        (if (findNode g (getUuid1 oId)).isSome then keysOf g
          else keysOf g ++ [getUuid1 oId]) := by
  have hUR : "ROOT" ≠ getUuid1 oId := fun h => getUuid1_ne_ROOT oId h.symm
  unfold WellFormed at hwf
  obtain ⟨hndK, hAll⟩ := hwf
  obtain ⟨hndR, hRops, hRpfa, hRchild⟩ := hAll _ (findNode_mem _ _ _ hroot)
  rcases hn0 with hpres | ⟨habs, hfr⟩
  · obtain ⟨hndc0, hps0, hpfa0, hchild0⟩ := hAll _ (findNode_mem _ _ _ hpres)
    have hsym : n0.parentKey ≠ some "ROOT" → getUuid1 oId ∉ rootN.children := by
      intro hne hmem
      have hh : ∃ q, findNode g (getUuid1 oId) = some q ∧ q.parentKey = some "ROOT" :=
        hRchild _ hmem
      obtain ⟨q, hq, hqp⟩ := hh
      rw [hpres] at hq
      rw [← Option.some.inj hq] at hqp
      exact hne hqp
    have hg0 : createOrFetch g (getUuid1 oId) = g := createOrFetch_of_some g _ n0 hpres
    obtain ⟨Z, hZnm, hU, hR, hSp, hOld, hK⟩ :=
      setParentRootLm_post g (getUuid1 oId) m n0 rootN hpres hroot hUR hps0 hndR hsym
    rw [hg0]
    refine ⟨Z, hZnm, hU, hR, hSp, hOld, ?_, ?_⟩
    · rw [countKey_congr hK]
      exact countKey_eq_one_of_nodup g _ hndK (by rw [hpres]; rfl)
    · rw [hpres]
      simp only [Option.isSome_some, if_true]
      exact hK
  · subst hfr
    have hg0 : createOrFetch g (getUuid1 oId) =
        g ++ [(getUuid1 oId, SceneNode.fresh (getUuid1 oId))] :=
      createOrFetch_of_none g _ habs
    have hu0 : findNode (g ++ [(getUuid1 oId, SceneNode.fresh (getUuid1 oId))])
        (getUuid1 oId) = some (SceneNode.fresh (getUuid1 oId)) := by
      rw [findNode_append_of_none _ _ _ habs, findNode_cons, if_pos rfl]
    have hr0 := findNode_append_of_some g
      [(getUuid1 oId, SceneNode.fresh (getUuid1 oId))] "ROOT" rootN hroot
    have hps0 : (SceneNode.fresh (getUuid1 oId)).parentKey ≠ some (getUuid1 oId) :=
      fun h => Option.noConfusion h
    have hsym : (SceneNode.fresh (getUuid1 oId)).parentKey ≠ some "ROOT" →
        getUuid1 oId ∉ rootN.children := by
      intro _ hmem
      have hh : ∃ q, findNode g (getUuid1 oId) = some q ∧ q.parentKey = some "ROOT" :=
        hRchild _ hmem
      obtain ⟨q, hq, _⟩ := hh
      rw [habs] at hq
      exact Option.noConfusion hq
    obtain ⟨Z, hZnm, hU, hR, hSp, hOld, hK⟩ :=
      setParentRootLm_post (g ++ [(getUuid1 oId, SceneNode.fresh (getUuid1 oId))])
        (getUuid1 oId) m (SceneNode.fresh (getUuid1 oId)) rootN hu0 hr0 hUR hps0 hndR hsym
    rw [hg0]
    have hknot : getUuid1 oId ∉ keysOf g := (findNode_eq_none_iff g _).mp habs
    refine ⟨Z, hZnm, hU, hR, ?_, ?_, ?_, ?_⟩
    · intro k hk1 hk2 hk3 v hv
      exact hSp k hk1 hk2 hk3 v (findNode_append_of_some g _ k v hv)
    · intro pk0 hop h1 h2 v hv
      exact hOld pk0 hop h1 h2 v (findNode_append_of_some g _ pk0 v hv)
    · unfold countKey
      rw [hK, keysOf_append, List.count_append, List.count_eq_zero_of_not_mem hknot]
      show 0 + [getUuid1 oId].count (getUuid1 oId) = 1
      rw [List.count_cons_self]
      rfl
    · rw [habs]
      simp only [Option.isSome_none, Bool.false_eq_true, if_false]
      rw [hK, keysOf_append]
      rfl

/-- Full characterization of the registry effect of addObject (src lines
38–61) over any well-formed registry that binds the root: the object's
binding (parented under the root, matrix installed, correction child
appended once when requested), the root's binding (object key appended
once), the correction child's binding, the object-key count, and the
detachment of the object key from its previous parent's children. -/
theorem addObjectNodes_post (g : Graph) (oId : String) (m : Option Mat) (rot : Bool)
    (hwf : WellFormed g) (rootN : SceneNode)
    (hroot : findNode g "ROOT" = some rootN)
    (n0 : SceneNode)
    (hn0 : findNode g (getUuid1 oId) = some n0 ∨
      (findNode g (getUuid1 oId) = none ∧ n0 = SceneNode.fresh (getUuid1 oId))) :
    ∃ nA rA : SceneNode,
      bindsModDirty (addObjectNodes g oId m rot) (getUuid1 oId) nA ∧
      bindsModDirty (addObjectNodes g oId m rot) "ROOT" rA ∧
      nA.parentKey = some "ROOT" ∧
      (∀ mat, m = some mat → nA.localMatrix = mat) ∧
      (rot = true → nA.needsRotateX = true) ∧
      (rot = true → ∃ Y, nA.children = Y ++ [rotateXKeyOf (getUuid1 oId)] ∧
        rotateXKeyOf (getUuid1 oId) ∉ Y) ∧
      (rot = true → ∃ xA, bindsModDirty (addObjectNodes g oId m rot)
          (rotateXKeyOf (getUuid1 oId)) xA ∧
        xA.parentKey = some (getUuid1 oId) ∧ xA.localMatrix = rotateXMatrix) ∧
      (∃ Z, rA.children = Z ++ [getUuid1 oId] ∧ getUuid1 oId ∉ Z) ∧
      countKey (addObjectNodes g oId m rot) (getUuid1 oId) = 1 ∧
      (∀ w, n0.parentKey = some w → w ≠ "ROOT" → w ≠ getUuid1 oId →
        w ≠ rotateXKeyOf (getUuid1 oId) →
        ∀ w2, findNode (addObjectNodes g oId m rot) w = some w2 →
          getUuid1 oId ∉ w2.children) := by
  have hUrot : getUuid1 oId ≠ rotateXKeyOf (getUuid1 oId) :=
    fun h => rotateXKeyOf_ne _ h.symm
  have hrotU : rotateXKeyOf (getUuid1 oId) ≠ getUuid1 oId := rotateXKeyOf_ne _
  have hRU : "ROOT" ≠ getUuid1 oId := fun h => getUuid1_ne_ROOT oId h.symm
  have hRrot : "ROOT" ≠ rotateXKeyOf (getUuid1 oId) :=
    fun h => rotateXKeyOf_getUuid1_ne_ROOT oId h.symm
  have hrotR : rotateXKeyOf (getUuid1 oId) ≠ "ROOT" := rotateXKeyOf_getUuid1_ne_ROOT oId
  have hwf' := hwf
  unfold WellFormed at hwf'
  obtain ⟨hndK, hAll⟩ := hwf'
  have hndc0 : n0.children.Nodup := by
    rcases hn0 with hpres | ⟨_, hfr⟩
    · exact (hAll _ (findNode_mem _ _ _ hpres)).1
    · rw [hfr]
      exact List.nodup_nil
  have hchild0 : ∀ c ∈ n0.children, ∃ q, findNode g c = some q ∧
      q.parentKey = some (getUuid1 oId) := by
    rcases hn0 with hpres | ⟨_, hfr⟩
    · intro c hc
      exact (hAll _ (findNode_mem _ _ _ hpres)).2.2.2 c hc
    · intro c hc
      rw [hfr] at hc
      exact absurd hc (List.not_mem_nil c)
  have hpfa0 : ∀ pk, n0.parentKey = some pk → ∃ q, findNode g pk = some q ∧
      getUuid1 oId ∈ q.children := by
    rcases hn0 with hpres | ⟨_, hfr⟩
    · intro pk hpk
      exact (hAll _ (findNode_mem _ _ _ hpres)).2.2.1 pk hpk
    · intro pk hpk
      rw [hfr] at hpk
      exact Option.noConfusion hpk
  obtain ⟨Z, hZnm, hU2, hR2, hsp2, hold2, hcnt2, hkeys2⟩ :=
    addObjectPre_post g oId m hwf rootN hroot n0 hn0
  cases rot with
  | false =>
      have hfin : addObjectNodes g oId m false =
          setLocalMatrixOpt (setParentG (createOrFetch g (getUuid1 oId))
            (getUuid1 oId) "ROOT") (getUuid1 oId) m := rfl
      rw [hfin]
      refine ⟨_, _, hU2, hR2, rfl, ?_, fun h => Bool.noConfusion h,
        fun h => Bool.noConfusion h, fun h => Bool.noConfusion h,
        ⟨Z, rfl, hZnm⟩, hcnt2, ?_⟩
      · intro mat hm
        subst hm
        rfl
      · intro w hw hw1 hw2 hw3 w2 hfind
        obtain ⟨v0, hv0, _⟩ := hpfa0 w hw
        obtain ⟨bw, hbw⟩ := hold2 w hw hw1 hw2 v0 hv0
        have hndv0 : v0.children.Nodup := (hAll _ (findNode_mem _ _ _ hv0)).1
        rw [← Option.some.inj (hbw.symm.trans hfind)]
        intro hmem
        have hmem' : getUuid1 oId ∈ v0.children.erase (getUuid1 oId) := hmem
        exact (hndv0.mem_erase_iff.mp hmem').1 rfl
  | true =>
      have hfin : addObjectNodes g oId m true =
          addRotateXG (setLocalMatrixOpt (setParentG (createOrFetch g (getUuid1 oId))
            (getUuid1 oId) "ROOT") (getUuid1 oId) m) (getUuid1 oId) false := rfl
      rw [hfin]
      obtain ⟨b2, hb2⟩ := hU2
      have hrkPre : (findNode (setLocalMatrixOpt (setParentG (createOrFetch g (getUuid1 oId))
            (getUuid1 oId) "ROOT") (getUuid1 oId) m) (rotateXKeyOf (getUuid1 oId)) = none ∧
          findNode g (rotateXKeyOf (getUuid1 oId)) = none) ∨
          (∃ x0 x1, findNode g (rotateXKeyOf (getUuid1 oId)) = some x0 ∧
            findNode (setLocalMatrixOpt (setParentG (createOrFetch g (getUuid1 oId))
              (getUuid1 oId) "ROOT") (getUuid1 oId) m) (rotateXKeyOf (getUuid1 oId)) =
              some x1 ∧
            x1.parentKey = x0.parentKey) := by
        cases hrkg : findNode g (rotateXKeyOf (getUuid1 oId)) with
        | none =>
            left
            refine ⟨?_, rfl⟩
            rw [findNode_eq_none_iff, hkeys2]
            have hnotg : rotateXKeyOf (getUuid1 oId) ∉ keysOf g :=
              (findNode_eq_none_iff g _).mp hrkg
            by_cases hfu : (findNode g (getUuid1 oId)).isSome
            · rw [if_pos hfu]
              exact hnotg
            · rw [if_neg hfu]
              intro hmem
              rcases List.mem_append.mp hmem with hmm | hmm
              · exact hnotg hmm
              · exact hrotU (List.mem_singleton.mp hmm)
        | some x0 =>
            right
            by_cases hpk : n0.parentKey = some (rotateXKeyOf (getUuid1 oId))
            · obtain ⟨bx, hbx⟩ := hold2 _ hpk hrotR hrotU x0 hrkg
              exact ⟨x0, _, rfl, hbx, rfl⟩
            · obtain ⟨bx, hbx⟩ := hsp2 _ hrotU hrotR hpk x0 hrkg
              exact ⟨x0, _, rfl, hbx, rfl⟩
      have hxps : ∀ x, findNode (setLocalMatrixOpt (setParentG (createOrFetch g
          (getUuid1 oId)) (getUuid1 oId) "ROOT") (getUuid1 oId) m)
          (rotateXKeyOf (getUuid1 oId)) = some x →
          x.parentKey ≠ some (rotateXKeyOf (getUuid1 oId)) := by
        intro x hx
        rcases hrkPre with ⟨hnone, _⟩ | ⟨x0, x1, hgx, hpx, hpkx⟩
        · rw [hnone] at hx
          exact Option.noConfusion hx
        · rw [hpx] at hx
          rw [← Option.some.inj hx, hpkx]
          exact (hAll _ (findNode_mem _ _ _ hgx)).2.1
      obtain ⟨selfN, hdisj, hXbind, hPkE, hPkA, hXsp, hXold, hXkeys⟩ :=
        addRotateXG_post (setLocalMatrixOpt (setParentG (createOrFetch g (getUuid1 oId))
          (getUuid1 oId) "ROOT") (getUuid1 oId) m) (getUuid1 oId) _ hb2 hxps
      have hselfInfo : (selfN.parentKey = none ∧
          findNode g (rotateXKeyOf (getUuid1 oId)) = none) ∨
          (∃ x0, findNode g (rotateXKeyOf (getUuid1 oId)) = some x0 ∧
            selfN.parentKey = x0.parentKey) := by
        rcases hdisj with hsome | ⟨hnone2, hfr2⟩
        · rcases hrkPre with ⟨hnone, _⟩ | ⟨x0, x1, hgx, hpx, hpkx⟩
          · rw [hnone] at hsome
            exact Option.noConfusion hsome
          · right
            refine ⟨x0, hgx, ?_⟩
            rw [hpx] at hsome
            rw [← Option.some.inj hsome]
            exact hpkx
        · rcases hrkPre with ⟨hnone, hgnone⟩ | ⟨x0, x1, hgx, hpx, hpkx⟩
          · left
            refine ⟨?_, hgnone⟩
            rw [hfr2]
            rfl
          · rw [hpx] at hnone2
            exact Option.noConfusion hnone2
      have hrotNM : selfN.parentKey ≠ some (getUuid1 oId) →
          rotateXKeyOf (getUuid1 oId) ∉ n0.children := by
        intro hne hmem
        obtain ⟨q, hq, hqp⟩ := hchild0 _ hmem
        rcases hselfInfo with ⟨_, hgnone⟩ | ⟨x0, hgx, hpkx⟩
        · rw [hgnone] at hq
          exact Option.noConfusion hq
        · rw [hgx] at hq
          rw [Option.some.inj hq] at hpkx
          rw [hqp] at hpkx
          exact hne hpkx
      have hMain : ∃ nA : SceneNode,
          bindsModDirty (addRotateXG (setLocalMatrixOpt (setParentG (createOrFetch g
            (getUuid1 oId)) (getUuid1 oId) "ROOT") (getUuid1 oId) m) (getUuid1 oId) false)
            (getUuid1 oId) nA ∧
          nA.parentKey = some "ROOT" ∧
          (∀ mat, m = some mat → nA.localMatrix = mat) ∧
          nA.needsRotateX = true ∧
          ∃ Y, nA.children = Y ++ [rotateXKeyOf (getUuid1 oId)] ∧
            rotateXKeyOf (getUuid1 oId) ∉ Y := by
        by_cases hpkU : selfN.parentKey = some (getUuid1 oId)
        · have h5 := hPkE hpkU
          rw [dirty_comm_rotch] at h5
          have h6 := bindsModDirty_dirty h5
          refine ⟨_, h6, rfl, ?_, rfl, ?_⟩
          · intro mat hm
            subst hm
            rfl
          · refine ⟨n0.children.erase (rotateXKeyOf (getUuid1 oId)), rfl, ?_⟩
            intro hmem
            exact (hndc0.mem_erase_iff.mp hmem).1 rfl
        · have h5 := hPkA hpkU
          rw [dirty_comm_rotch] at h5
          have h6 := bindsModDirty_dirty h5
          refine ⟨_, h6, rfl, ?_, rfl, ?_⟩
          · intro mat hm
            subst hm
            rfl
          · exact ⟨n0.children, rfl, hrotNM hpkU⟩
      have hRfin : ∃ Z2, getUuid1 oId ∉ Z2 ∧
          bindsModDirty (addRotateXG (setLocalMatrixOpt (setParentG (createOrFetch g
            (getUuid1 oId)) (getUuid1 oId) "ROOT") (getUuid1 oId) m) (getUuid1 oId) false)
            "ROOT" { rootN with children := Z2 ++ [getUuid1 oId] } := by
        obtain ⟨bz, hbz⟩ := hR2
        by_cases hpkR : selfN.parentKey = some "ROOT"
        · have h7 := hXold "ROOT" hpkR hRU hRrot _ hbz
          rw [dirty_comm_ch] at h7
          have h8 := bindsModDirty_dirty h7
          rw [children_idem] at h8
          have hc' : ({ { rootN with children := Z ++ [getUuid1 oId] } with dirty := bz } :
              SceneNode).children.erase (rotateXKeyOf (getUuid1 oId)) =
              (Z ++ [getUuid1 oId]).erase (rotateXKeyOf (getUuid1 oId)) := rfl
          rw [hc'] at h8
          by_cases hrz : rotateXKeyOf (getUuid1 oId) ∈ Z
          · rw [List.erase_append_left _ hrz] at h8
            refine ⟨Z.erase (rotateXKeyOf (getUuid1 oId)), ?_, h8⟩
            intro hmem
            exact hZnm (List.mem_of_mem_erase hmem)
          · have hnm1 : rotateXKeyOf (getUuid1 oId) ∉ [getUuid1 oId] := by
              intro hmem
              exact hrotU (List.mem_singleton.mp hmem)
            rw [List.erase_append_right _ hrz, List.erase_of_not_mem hnm1] at h8
            exact ⟨Z, hZnm, h8⟩
        · have h7 := hXsp "ROOT" hRU hRrot hpkR _ hbz
          have h8 := bindsModDirty_dirty h7
          exact ⟨Z, hZnm, h8⟩
      obtain ⟨nA, hnA1, hnA2, hnA3, hnA4, Y, hY1, hY2⟩ := hMain
      obtain ⟨Z2, hZ2nm, hZ2b⟩ := hRfin
      refine ⟨nA, { rootN with children := Z2 ++ [getUuid1 oId] }, hnA1, hZ2b, hnA2, hnA3,
        fun _ => hnA4, fun _ => ⟨Y, hY1, hY2⟩, ?_, ⟨Z2, rfl, hZ2nm⟩, ?_, ?_⟩
      · intro _
        exact ⟨_, hXbind, rfl, rfl⟩
      · rcases hrkPre with ⟨hnone, _⟩ | ⟨x0, x1, hgx, hpx, hpkx⟩
        · rw [hnone] at hXkeys
          simp only [Option.isSome_none, Bool.false_eq_true, if_false] at hXkeys
          unfold countKey
          unfold countKey at hcnt2
          rw [hXkeys, List.count_append, hcnt2]
          have h0 : List.count (getUuid1 oId) [rotateXKeyOf (getUuid1 oId)] = 0 :=
            List.count_eq_zero_of_not_mem
              (fun hmem => hUrot (List.mem_singleton.mp hmem))
          rw [h0]
        · rw [hpx] at hXkeys
          simp only [Option.isSome_some, if_true] at hXkeys
          rw [countKey_congr hXkeys]
          exact hcnt2
      · intro w hw hw1 hw2 hw3 w2 hfind
        obtain ⟨v0, hv0, _⟩ := hpfa0 w hw
        obtain ⟨bw, hbw⟩ := hold2 w hw hw1 hw2 v0 hv0
        have hndv0 : v0.children.Nodup := (hAll _ (findNode_mem _ _ _ hv0)).1
        by_cases hpkW : selfN.parentKey = some w
        · obtain ⟨bw2, hbw2⟩ := hXold w hpkW hw2 hw3 _ hbw
          rw [← Option.some.inj (hbw2.symm.trans hfind)]
          intro hmem
          have hmem' : getUuid1 oId ∈ (v0.children.erase (getUuid1 oId)).erase
              (rotateXKeyOf (getUuid1 oId)) := hmem
          have hmem'' := List.mem_of_mem_erase hmem'
          exact (hndv0.mem_erase_iff.mp hmem'').1 rfl
        · obtain ⟨bw2, hbw2⟩ := hXsp w hw2 hw3 hpkW _ hbw
          rw [← Option.some.inj (hbw2.symm.trans hfind)]
          intro hmem
          have hmem' : getUuid1 oId ∈ v0.children.erase (getUuid1 oId) := hmem
          exact (hndv0.mem_erase_iff.mp hmem').1 rfl

/-- C10: For every objectId whose node already exists in the registry, any
call to addObject(objectId, ...) sets that node's parent back to the root
node: the object's binding in the resulting registry points at ROOT and the
object key is listed among the root's children; in particular, when the
node had previously been reparented under a world anchor (its parent being
the one-segment key of a distinct id wId, as updateObjectWorldId leaves
it), the object key is no longer among that anchor's children afterwards. -/
theorem claimC10_addObject_reparents_to_root {O : Type} (s : SceneGraphState O)
    (oId wId : String) (m : Option Mat) (rot : Bool)
    (hwf : WellFormed s.nodes)
    (rootN : SceneNode) (hroot : findNode s.nodes "ROOT" = some rootN)
    (n0 : SceneNode) (hn0 : findNode s.nodes (getUuid1 oId) = some n0) :
    (∃ nA, bindsModDirty (addObject s oId m rot).nodes (getUuid1 oId) nA ∧
      nA.parentKey = some "ROOT") ∧
    (∃ rA, bindsModDirty (addObject s oId m rot).nodes "ROOT" rA ∧
      getUuid1 oId ∈ rA.children) ∧
    (oId ≠ wId → n0.parentKey = some (getUuid1 wId) →
      ∀ w2, findNode (addObject s oId m rot).nodes (getUuid1 wId) = some w2 →
        getUuid1 oId ∉ w2.children) := by
  have hEq : (addObject s oId m rot).nodes = addObjectNodes s.nodes oId m rot := rfl
  rw [hEq]
  obtain ⟨nA, rA, h1, h2, h3, _, _, _, _, ⟨Z, hZ, hZnm⟩, _, h10⟩ :=
    addObjectNodes_post s.nodes oId m rot hwf rootN hroot n0 (Or.inl hn0)
  refine ⟨⟨nA, h1, h3⟩, ⟨rA, h2, ?_⟩, ?_⟩
  · rw [hZ]
    exact List.mem_append_right _ (List.mem_singleton.mpr rfl)
  · intro hne hpk w2 hfind
    refine h10 (getUuid1 wId) hpk (getUuid1_ne_ROOT wId) ?_ ?_ w2 hfind
    · intro hh
      exact hne (getUuid1_inj _ _ hh).symm
    · exact getUuid1_ne_rotateXKey wId oId

/-- Witness for C10: on a concrete graph where object o was reparented
under world anchor w by updateObjectWorldId, a second addObject for o
re-attaches it under the root and detaches it from the anchor. -/
theorem claimC10_witness :
    (∃ nA, bindsModDirty (addObject (updateObjectWorldId (addObject (addObject
        (initialSceneGraph (0 : ℕ)) "w" none false) "o" none false) "o" "w")
        "o" none false).nodes (getUuid1 "o") nA ∧
      nA.parentKey = some "ROOT") ∧
    (∃ rA, bindsModDirty (addObject (updateObjectWorldId (addObject (addObject
        (initialSceneGraph (0 : ℕ)) "w" none false) "o" none false) "o" "w")
        "o" none false).nodes "ROOT" rA ∧
      getUuid1 "o" ∈ rA.children) ∧
    (∀ w2, findNode (addObject (updateObjectWorldId (addObject (addObject
        (initialSceneGraph (0 : ℕ)) "w" none false) "o" none false) "o" "w")
        "o" none false).nodes (getUuid1 "w") = some w2 →
      getUuid1 "o" ∉ w2.children) := by
  have hS : (findNode (updateObjectWorldId (addObject (addObject
      (initialSceneGraph (0 : ℕ)) "w" none false) "o" none false) "o" "w").nodes
      (getUuid1 "o")).isSome := by decide
  obtain ⟨n, hn⟩ := Option.isSome_iff_exists.mp hS
  have hpk : n.parentKey = some (getUuid1 "w") := by
    have hmap : (findNode (updateObjectWorldId (addObject (addObject
        (initialSceneGraph (0 : ℕ)) "w" none false) "o" none false) "o" "w").nodes
        (getUuid1 "o")).map SceneNode.parentKey = some (some (getUuid1 "w")) := by decide
    rw [hn] at hmap
    exact Option.some.inj hmap
  have hRS : (findNode (updateObjectWorldId (addObject (addObject
      (initialSceneGraph (0 : ℕ)) "w" none false) "o" none false) "o" "w").nodes
      "ROOT").isSome := by decide
  obtain ⟨rN, hrN⟩ := Option.isSome_iff_exists.mp hRS
  have hc := claimC10_addObject_reparents_to_root (updateObjectWorldId (addObject (addObject
      (initialSceneGraph (0 : ℕ)) "w" none false) "o" none false) "o" "w")
    "o" "w" none false (by decide) rN hrN n hn
  exact ⟨hc.1, hc.2.1, hc.2.2 (by decide) hpk⟩

/-- C1: addObject is idempotent — a second call with the same objectId,
matrix and correction flag leaves exactly one binding of the object key
and the same parent/child edge relation as after the first call. -/
theorem claimC1_addObject_idempotent {O : Type} (s : SceneGraphState O)
    (oId : String) (m : Option Mat) (rot : Bool)
    (hwf : WellFormed s.nodes)
    (rootN : SceneNode) (hroot : findNode s.nodes "ROOT" = some rootN) :
    countKey (addObject s oId m rot).nodes (getUuid1 oId) = 1 ∧
    countKey (addObject (addObject s oId m rot) oId m rot).nodes (getUuid1 oId) = 1 ∧
    ∀ a c, isEdge (addObject (addObject s oId m rot) oId m rot).nodes a c ↔
      isEdge (addObject s oId m rot).nodes a c := by
  have hE1 : (addObject s oId m rot).nodes = addObjectNodes s.nodes oId m rot := rfl
  have hE2 : (addObject (addObject s oId m rot) oId m rot).nodes =
      addObjectNodes (addObjectNodes s.nodes oId m rot) oId m rot := rfl
  rw [hE1, hE2]
  obtain ⟨n0, hn0⟩ : ∃ n0, findNode s.nodes (getUuid1 oId) = some n0 ∨
      (findNode s.nodes (getUuid1 oId) = none ∧ n0 = SceneNode.fresh (getUuid1 oId)) := by
    cases hfu : findNode s.nodes (getUuid1 oId) with
    | some x => exact ⟨x, Or.inl rfl⟩
    | none => exact ⟨SceneNode.fresh (getUuid1 oId), Or.inr ⟨rfl, rfl⟩⟩
  obtain ⟨nA, rA, hA1, hA2, hApk, hAlm, hAnrx, hAch, hAx, hAZ, hAcnt, hAw⟩ :=
    addObjectNodes_post s.nodes oId m rot hwf rootN hroot n0 hn0
  obtain ⟨Z, hZ, hZnm⟩ := hAZ
  have hDR : DR (addObjectNodes s.nodes oId m rot)
      (addObjectNodes (addObjectNodes s.nodes oId m rot) oId m rot) := by
    have hUrot : getUuid1 oId ≠ rotateXKeyOf (getUuid1 oId) :=
      fun h => rotateXKeyOf_ne _ h.symm
    have hrotU : rotateXKeyOf (getUuid1 oId) ≠ getUuid1 oId := rotateXKeyOf_ne _
    have hRU : "ROOT" ≠ getUuid1 oId := fun h => getUuid1_ne_ROOT oId h.symm
    have hRrot : "ROOT" ≠ rotateXKeyOf (getUuid1 oId) :=
      fun h => rotateXKeyOf_getUuid1_ne_ROOT oId h.symm
    have hrotR : rotateXKeyOf (getUuid1 oId) ≠ "ROOT" := rotateXKeyOf_getUuid1_ne_ROOT oId
    obtain ⟨bA, hbA⟩ := hA1
    obtain ⟨bR, hbR⟩ := hA2
    have hpc : createOrFetch (addObjectNodes s.nodes oId m rot) (getUuid1 oId) =
        addObjectNodes s.nodes oId m rot := createOrFetch_of_some _ _ _ hbA
    have hps2 : ({ nA with dirty := bA } : SceneNode).parentKey ≠ some (getUuid1 oId) := by
      show nA.parentKey ≠ some (getUuid1 oId)
      rw [hApk]
      intro hh
      exact hRU (Option.some.inj hh)
    obtain ⟨hQ1, hQ2, hQ3, hQ4, hQ5, hQ6⟩ := setParentG_post
      (addObjectNodes s.nodes oId m rot) (getUuid1 oId) "ROOT"
      { nA with dirty := bA } { rA with dirty := bR } hbA hbR hRU hps2
    have hG1u : bindsModDirty (setParentG (addObjectNodes s.nodes oId m rot)
        (getUuid1 oId) "ROOT") (getUuid1 oId) nA := by
      have h := hQ1
      rw [dirty_comm_pk] at h
      have h2 := bindsModDirty_dirty h
      rw [sn_pk_self nA (some "ROOT") hApk] at h2
      exact h2
    have hG1root : bindsModDirty (setParentG (addObjectNodes s.nodes oId m rot)
        (getUuid1 oId) "ROOT") "ROOT" rA := by
      have hop : ({ nA with dirty := bA } : SceneNode).parentKey = some "ROOT" := hApk
      have h := hQ2 hop
      rw [dirty_comm_ch] at h
      have h2 := bindsModDirty_dirty h
      have hc : ({ rA with dirty := bR } : SceneNode).children.erase (getUuid1 oId) ++
          [getUuid1 oId] = rA.children := by
        show rA.children.erase (getUuid1 oId) ++ [getUuid1 oId] = rA.children
        rw [hZ, List.erase_append_right _ hZnm, List.erase_cons_head, List.append_nil]
      rw [hc] at h2
      rw [sn_children_self rA rA.children rfl] at h2
      exact h2
    have hG1sp : ∀ k, k ≠ getUuid1 oId → k ≠ "ROOT" →
        ∀ v, findNode (addObjectNodes s.nodes oId m rot) k = some v →
        bindsModDirty (setParentG (addObjectNodes s.nodes oId m rot) (getUuid1 oId) "ROOT")
          k v := by
      intro k h1 h2 v hv
      refine hQ4 k h1 h2 ?_ v hv
      show nA.parentKey ≠ some k
      rw [hApk]
      intro hh
      exact h2 (Option.some.inj hh).symm
    have hL := setLocalMatrixOpt_post (setParentG (addObjectNodes s.nodes oId m rot)
      (getUuid1 oId) "ROOT") (getUuid1 oId) m
    have hG2sp : ∀ k, k ≠ getUuid1 oId → ∀ nn,
        bindsModDirty (setParentG (addObjectNodes s.nodes oId m rot)
          (getUuid1 oId) "ROOT") k nn →
        bindsModDirty (setLocalMatrixOpt (setParentG (addObjectNodes s.nodes oId m rot)
          (getUuid1 oId) "ROOT") (getUuid1 oId) m) k nn :=
      fun k hk => bindsModDirty_mono (fun v hv => hL.2 k hk v hv)
    have hG2u : bindsModDirty (setLocalMatrixOpt (setParentG (addObjectNodes s.nodes
        oId m rot) (getUuid1 oId) "ROOT") (getUuid1 oId) m) (getUuid1 oId) nA := by
      obtain ⟨b1, hb1⟩ := hG1u
      have h2 := hL.1 _ hb1
      cases m with
      | none =>
          have h3 : bindsModDirty (setLocalMatrixOpt (setParentG (addObjectNodes s.nodes
              oId none rot) (getUuid1 oId) "ROOT") (getUuid1 oId) none) (getUuid1 oId)
              { nA with dirty := b1 } := h2
          exact bindsModDirty_dirty h3
      | some mat =>
          have h3 : bindsModDirty (setLocalMatrixOpt (setParentG (addObjectNodes s.nodes
              oId (some mat) rot) (getUuid1 oId) "ROOT") (getUuid1 oId) (some mat))
              (getUuid1 oId) { { nA with dirty := b1 } with localMatrix := mat } := h2
          rw [dirty_comm_lm] at h3
          have h4 := bindsModDirty_dirty h3
          rw [sn_lm_self nA mat (hAlm mat rfl)] at h4
          exact h4
    have hG2root := hG2sp "ROOT" hRU _ hG1root
    have hkeys12 : keysOf (setLocalMatrixOpt (setParentG (addObjectNodes s.nodes oId m rot)
        (getUuid1 oId) "ROOT") (getUuid1 oId) m) =
        keysOf (addObjectNodes s.nodes oId m rot) := by
      rw [keysOf_setLocalMatrixOpt]
      exact hQ6
    cases rot with
    | false =>
        have hfin2 : addObjectNodes (addObjectNodes s.nodes oId m false) oId m false =
            setLocalMatrixOpt (setParentG (addObjectNodes s.nodes oId m false)
              (getUuid1 oId) "ROOT") (getUuid1 oId) m := by
          show setLocalMatrixOpt (setParentG (createOrFetch (addObjectNodes s.nodes oId m
            false) (getUuid1 oId)) (getUuid1 oId) "ROOT") (getUuid1 oId) m = _
          rw [hpc]
        rw [hfin2]
        unfold DR
        refine ⟨hkeys12, ?_⟩
        intro k n hn
        by_cases hku : k = getUuid1 oId
        · subst hku
          have hEqn : n = { nA with dirty := bA } := Option.some.inj (hn.symm.trans hbA)
          obtain ⟨b2, hb2⟩ := hG2u
          refine ⟨b2, ?_⟩
          rw [hEqn, dirty_idem]
          exact hb2
        · by_cases hkR : k = "ROOT"
          · subst hkR
            have hEqn : n = { rA with dirty := bR } := Option.some.inj (hn.symm.trans hbR)
            obtain ⟨b2, hb2⟩ := hG2root
            refine ⟨b2, ?_⟩
            rw [hEqn, dirty_idem]
            exact hb2
          · exact hG2sp k hku _ (hG1sp k hku hkR n hn)
    | true =>
        have hnrx := hAnrx rfl
        obtain ⟨Y, hY, hYnm⟩ := hAch rfl
        obtain ⟨xA, hxb, hxpk, hxlm⟩ := hAx rfl
        obtain ⟨bX, hbX⟩ := hxb
        have hG2x : bindsModDirty (setLocalMatrixOpt (setParentG (addObjectNodes s.nodes
            oId m true) (getUuid1 oId) "ROOT") (getUuid1 oId) m)
            (rotateXKeyOf (getUuid1 oId)) xA := by
          have h1 := hG1sp (rotateXKeyOf (getUuid1 oId)) hrotU hrotR _ hbX
          exact bindsModDirty_dirty (hG2sp _ hrotU _ h1)
        obtain ⟨b3, hb3⟩ := hG2x
        obtain ⟨b2, hb2⟩ := hG2u
        have hxps2 : ∀ x, findNode (setLocalMatrixOpt (setParentG (addObjectNodes s.nodes
            oId m true) (getUuid1 oId) "ROOT") (getUuid1 oId) m)
            (rotateXKeyOf (getUuid1 oId)) = some x →
            x.parentKey ≠ some (rotateXKeyOf (getUuid1 oId)) := by
          intro x hx
          rw [← Option.some.inj (hb3.symm.trans hx)]
          show xA.parentKey ≠ some (rotateXKeyOf (getUuid1 oId))
          rw [hxpk]
          intro hh
          exact hrotU (Option.some.inj hh).symm
        obtain ⟨selfN2, hdisj2, hXbind2, hPkE2, hPkA2, hXsp2, hXold2, hXkeys2⟩ :=
          addRotateXG_post (setLocalMatrixOpt (setParentG (addObjectNodes s.nodes oId m
            true) (getUuid1 oId) "ROOT") (getUuid1 oId) m) (getUuid1 oId) _ hb2 hxps2
        have hEqS : selfN2 = { xA with dirty := b3 } := by
          rcases hdisj2 with hsome2 | ⟨hnone2, _⟩
          · exact Option.some.inj (hsome2.symm.trans hb3)
          · rw [hnone2] at hb3
            exact Option.noConfusion hb3
        subst hEqS
        have hfin2 : addObjectNodes (addObjectNodes s.nodes oId m true) oId m true =
            addRotateXG (setLocalMatrixOpt (setParentG (addObjectNodes s.nodes oId m true)
              (getUuid1 oId) "ROOT") (getUuid1 oId) m) (getUuid1 oId) false := by
          show addRotateXG (setLocalMatrixOpt (setParentG (createOrFetch (addObjectNodes
            s.nodes oId m true) (getUuid1 oId)) (getUuid1 oId) "ROOT") (getUuid1 oId) m)
            (getUuid1 oId) false = _
          rw [hpc]
        rw [hfin2]
        unfold DR
        refine ⟨?_, ?_⟩
        · rw [hXkeys2, hb3]
          simp only [Option.isSome_some, if_true]
          exact hkeys12
        · intro k n hn
          by_cases hku : k = getUuid1 oId
          · subst hku
            have hEqn : n = { nA with dirty := bA } := Option.some.inj (hn.symm.trans hbA)
            have hopU : ({ xA with dirty := b3 } : SceneNode).parentKey =
                some (getUuid1 oId) := hxpk
            have h5 := hPkE2 hopU
            rw [dirty_comm_rotch] at h5
            have h6 := bindsModDirty_dirty h5
            have hCC : ({ nA with dirty := b2 } : SceneNode).children.erase
                (rotateXKeyOf (getUuid1 oId)) ++ [rotateXKeyOf (getUuid1 oId)] =
                nA.children := by
              show nA.children.erase (rotateXKeyOf (getUuid1 oId)) ++
                [rotateXKeyOf (getUuid1 oId)] = nA.children
              rw [hY, List.erase_append_right _ hYnm, List.erase_cons_head,
                List.append_nil]
            rw [hCC] at h6
            rw [sn_rotch_self nA nA.children hnrx rfl] at h6
            obtain ⟨b4, hb4⟩ := h6
            refine ⟨b4, ?_⟩
            rw [hEqn, dirty_idem]
            exact hb4
          · by_cases hkR : k = "ROOT"
            · subst hkR
              have hEqn : n = { rA with dirty := bR } := Option.some.inj (hn.symm.trans hbR)
              have hcond : ({ xA with dirty := b3 } : SceneNode).parentKey ≠
                  some "ROOT" := by
                show xA.parentKey ≠ some "ROOT"
                rw [hxpk]
                intro hh
                exact hRU (Option.some.inj hh).symm
              obtain ⟨bz2, hbz2⟩ := hG2root
              obtain ⟨b4, hb4⟩ := hXsp2 "ROOT" hRU hRrot hcond _ hbz2
              refine ⟨b4, ?_⟩
              rw [hEqn, dirty_idem]
              rw [dirty_idem] at hb4
              exact hb4
            · by_cases hkX : k = rotateXKeyOf (getUuid1 oId)
              · subst hkX
                have hEqn : n = { xA with dirty := bX } :=
                  Option.some.inj (hn.symm.trans hbX)
                have h7 := hXbind2
                rw [dirty_comm_pklm] at h7
                have h8 := bindsModDirty_dirty h7
                rw [sn_pklm_self xA (some (getUuid1 oId)) rotateXMatrix hxpk hxlm] at h8
                obtain ⟨b4, hb4⟩ := h8
                refine ⟨b4, ?_⟩
                rw [hEqn, dirty_idem]
                exact hb4
              · have h1 := hG1sp k hku hkR n hn
                obtain ⟨b4, hb4⟩ := hG2sp k hku _ h1
                have hcond : ({ xA with dirty := b3 } : SceneNode).parentKey ≠
                    some k := by
                  show xA.parentKey ≠ some k
                  rw [hxpk]
                  intro hh
                  exact hku (Option.some.inj hh).symm
                obtain ⟨b5, hb5⟩ := hXsp2 k hku hkX hcond _ hb4
                refine ⟨b5, ?_⟩
                rw [dirty_idem] at hb5
                exact hb5
  refine ⟨hAcnt, ?_, fun a c => isEdge_iff_of_DR hDR a c⟩
  rw [countKey_congr hDR.1]
  exact hAcnt

/-- Witness for C1: on the freshly constructed graph, two identical
addObject calls (with the coordinate correction requested) leave one
binding of the object key and identical edge relations. -/
theorem claimC1_witness :
    countKey (addObject (initialSceneGraph (0 : ℕ)) "o" none true).nodes
      (getUuid1 "o") = 1 ∧
    countKey (addObject (addObject (initialSceneGraph (0 : ℕ)) "o" none true) "o" none
      true).nodes (getUuid1 "o") = 1 ∧
    ∀ a c, isEdge (addObject (addObject (initialSceneGraph (0 : ℕ)) "o" none true) "o"
        none true).nodes a c ↔
      isEdge (addObject (initialSceneGraph (0 : ℕ)) "o" none true).nodes a c :=
  claimC1_addObject_idempotent (initialSceneGraph (0 : ℕ)) "o" none true (by decide)
    (SceneNode.fresh "ROOT") (by decide)

end SceneGraphJs
